import Mathlib

/-!
# Verification of the memHierarchy directory controller

A shallow embedding of `src/sst/elements/memHierarchy/directoryController.cc`
(the cache-coherence directory controller) and proofs about its handlers.

The controller's own logic (every `handle*`, `issue*`, `send*`, `clean*`,
`updateCache`, `processPacket`, ...) is translated directly from the C++
source.  The container classes it uses (`MSHR`, `DirEntry`, the link
routing layer and `MemEvent` construction) are declared in headers that are
not part of this repository snapshot; those are modelled from the
specification and marked as such in their doc comments.

Modelling conventions:
* machine integers are `Nat` (no overflow is relevant to any property here);
* `std::map` / `std::unordered_map` become association lists with
  `alookup` / `aupdate` / `aerase`; `std::map::insert` (which does not
  overwrite an existing key) becomes `ainsertNew`;
* fatal errors (`dbg.fatal`, `out.fatal`) and dereferences of null event
  pointers abort the run; handlers therefore return `Option` and these
  situations yield `none`;
* the two time-ordered outgoing queues (`cpuMsgQueue` / `memMsgQueue`) are
  collected in one `sent` list; each record keeps the scheduled delivery
  time, whether the message was routed by address (`forwardByAddress`) or
  by explicit destination, and the `dirAccess` flag;
* event deletion (`delete ev`) is a no-op; statistics and debug output are
  dropped.
-/

namespace MemH

abbrev Addr := Nat
abbrev Node := String
abbrev EventId := Nat × Nat

/-- Commands carried by `MemEvent`s (subset used by the directory). -/
inductive Cmd
  | GetS | GetSX | GetX | Write
  | PutS | PutE | PutX | PutM
  | FlushLine | FlushLineInv
  | FetchInv | FetchInvX | ForceInv | Inv
  | GetSResp | GetXResp | WriteResp | FlushLineResp
  | AckInv | AckPut | FetchResp | FetchXResp
  | NACK | NULLCMD
deriving DecidableEq, Repr

/-- Coherence states of a directory entry (`State` in the source). -/
inductive CohState
  | I | S | M
  | IS | IM | S_D | S_B | I_B
  | M_Inv | M_InvX | S_Inv | SM_Inv | SD_Inv | SB_Inv
  | I_d | S_d | M_d
  | NP
deriving DecidableEq, Repr

/-- Coherence protocol selection. -/
inductive Protocol
  | MSI | MESI
deriving DecidableEq, Repr

/-- Status returned by `allocateMSHR` (`MemEventStatus` in the source). -/
inductive MemEventStatus
  | OK | Stall | Reject
deriving DecidableEq, Repr

/-- Association-list lookup (first match wins), standing in for
`std::map::find`. -/
def alookup {ν : Type} (k : Nat) : List (Nat × ν) → Option ν
  | [] => none
  | (k', v) :: t => if k = k' then some v else alookup k t

/-- String-keyed association-list lookup. -/
def slookup {ν : Type} (k : String) : List (String × ν) → Option ν
  | [] => none
  | (k', v) :: t => if k = k' then some v else slookup k t

/-- Pair-keyed association-list lookup (for event ids). -/
def plookup {ν : Type} (k : EventId) : List (EventId × ν) → Option ν
  | [] => none
  | (k', v) :: t => if k = k' then some v else plookup k t

/-- Replace the binding of `k` (or append it), standing in for
`map[k] = v`. -/
def aupdate {ν : Type} (k : Nat) (v : ν) : List (Nat × ν) → List (Nat × ν)
  | [] => [(k, v)]
  | (k', v') :: t => if k = k' then (k, v) :: t else (k', v') :: aupdate k v t

/-- Remove the binding of `k`, standing in for `map.erase(k)`.  (Keys are
unique in every reachable map, so removing every match is the same as
removing the one binding.) -/
def aerase {ν : Type} (k : Nat) : List (Nat × ν) → List (Nat × ν)
  | [] => []
  | (k', v') :: t => if k = k' then aerase k t else (k', v') :: aerase k t

/-- String-keyed erase. -/
def serase {ν : Type} (k : String) : List (String × ν) → List (String × ν)
  | [] => []
  | (k', v') :: t => if k = k' then serase k t else (k', v') :: serase k t

/-- Pair-keyed erase. -/
def perase {ν : Type} (k : EventId) : List (EventId × ν) → List (EventId × ν)
  | [] => []
  | (k', v') :: t => if k = k' then perase k t else (k', v') :: perase k t

/-- `std::map::insert` on a string-keyed map: inserts only when the key is
absent, never overwrites. -/
def ainsertNew {ν : Type} (k : String) (v : ν) (l : List (String × ν)) :
    List (String × ν) :=
  match slookup k l with
  | some _ => l
  | none => l ++ [(k, v)]

/-- A memory event (`MemEvent`).  The fields mirror the ones the directory
reads or writes; a `NACK` stores its nacked event by pointer in the source,
which is passed alongside the event here (see `processPacket`). -/
structure MemEv where
  cmd : Cmd
  addr : Addr
  baseAddr : Addr
  src : Node := ""
  dst : Node := ""
  rqstr : Node := ""
  id : EventId := (0, 0)
  responseToId : EventId := (0, 0)
  size : Nat := 0
  payload : List Nat := []
  dirty : Bool := false
  evict : Bool := false
  addrGlobal : Bool := true
  noResponse : Bool := false
  flags : Nat := 0
  memFlags : Nat := 0
deriving DecidableEq, Repr

/-- Modelled from the spec: a directory entry (`DirEntry`, declared in the
missing header).  `owner` uses the empty string for "no owner" — the `.cc`
inserts `entry->getOwner()` into string-keyed maps, so the owner is a plain
string there.  `sharers` is a set kept as a duplicate-free list. -/
structure DirEntry where
  state : CohState := .I
  owner : Node := ""
  sharers : List Node := []
  cached : Bool := true
deriving DecidableEq, Repr

def DirEntry.hasOwner (e : DirEntry) : Bool := e.owner != ""

def DirEntry.hasSharers (e : DirEntry) : Bool := !e.sharers.isEmpty

def DirEntry.isSharer (e : DirEntry) (n : Node) : Bool := e.sharers.contains n

def DirEntry.addSharer (e : DirEntry) (n : Node) : DirEntry :=
  if e.sharers.contains n then e else { e with sharers := e.sharers ++ [n] }

def DirEntry.removeSharer (e : DirEntry) (n : Node) : DirEntry :=
  { e with sharers := e.sharers.erase n }

def DirEntry.removeOwner (e : DirEntry) : DirEntry := { e with owner := "" }

def DirEntry.getSharerCount (e : DirEntry) : Nat := e.sharers.length

/-- Modelled from the spec: one element of an MSHR's per-address queue —
either a blocked event or a writeback marker.  The `inProgress` flag is
attached to each queued event (the `.cc` reads `getInProgress` right after
`removeFront` in `cleanUpAfterRequest`, so the flag travels with the entry,
not with the address). -/
inductive MSHRItem
  | ev (e : MemEv) (inProgress : Bool)
  | wb (downgrade : Bool)
deriving DecidableEq, Repr

/-- Kind tag for `MSHRItem` (`MSHREntryType`). -/
inductive MSHRItemKind
  | event | writeback
deriving DecidableEq, Repr

def MSHRItem.kind : MSHRItem → MSHRItemKind
  | .ev _ _ => .event
  | .wb _ => .writeback

/-- Modelled from the spec: the per-address MSHR register — the ordered
entry queue, the outstanding-ack counter and the opportunistic data
buffer. -/
structure MSHRReg where
  entries : List MSHRItem := []
  acksNeeded : Nat := 0
  dataBuf : Option (List Nat) := none
  dataDirty : Bool := false
deriving DecidableEq, Repr

/-- An MSHR register with no content at all; such registers are erased so
that `exists` means "has any activity". -/
def MSHRReg.isEmptyReg (r : MSHRReg) : Bool :=
  r.entries.isEmpty && r.acksNeeded == 0 && r.dataBuf.isNone

abbrev Mshr := List (Addr × MSHRReg)

def mshrReg (m : Mshr) (a : Addr) : MSHRReg := (alookup a m).getD {}

/-- Write back a register, erasing it when it holds nothing. -/
def mshrSetReg (m : Mshr) (a : Addr) (r : MSHRReg) : Mshr :=
  if r.isEmptyReg then aerase a m else aupdate a r m

/-- `MSHR::exists`. -/
def mshrExists (m : Mshr) (a : Addr) : Bool := (alookup a m).isSome

/-- Total number of queued entries, for the capacity bound. -/
def mshrSize (m : Mshr) : Nat := (m.map (fun p => p.2.entries.length)).sum

def mshrGetFrontEvent (m : Mshr) (a : Addr) : Option MemEv :=
  match (mshrReg m a).entries.head? with
  | some (.ev e _) => some e
  | _ => none

def mshrGetFrontType (m : Mshr) (a : Addr) : Option MSHRItemKind :=
  ((mshrReg m a).entries.head?).map MSHRItem.kind

def mshrGetAcksNeeded (m : Mshr) (a : Addr) : Nat := (mshrReg m a).acksNeeded

/-- `MSHR::getInProgress`: the flag of the front entry. -/
def mshrGetInProgress (m : Mshr) (a : Addr) : Bool :=
  match (mshrReg m a).entries.head? with
  | some (.ev _ p) => p
  | _ => false

/-- `MSHR::setInProgress`: mark the front event in progress. -/
def mshrSetInProgress (m : Mshr) (a : Addr) : Mshr :=
  let r := mshrReg m a
  match r.entries with
  | .ev e _ :: t => mshrSetReg m a { r with entries := .ev e true :: t }
  | _ => m

/-- Modelled from the spec: `MSHR::insertEvent`.  `pos` 0 means front, 1
means right behind the front, any other value appends.  A forward-path
insert (`fwd`) bypasses the capacity bound.  Returns the final insertion
index, or -1 when the MSHR is full. -/
def mshrInsertEvent (maxSize : Option Nat) (m : Mshr) (a : Addr) (e : MemEv)
    (pos : Int) (fwd : Bool) : Int × Mshr :=
  match maxSize with
  | some n =>
    if !fwd && mshrSize m ≥ n then (-1, m) else mshrInsertAt m a e pos
  | none => mshrInsertAt m a e pos
where
  mshrInsertAt (m : Mshr) (a : Addr) (e : MemEv) (pos : Int) : Int × Mshr :=
    let r := mshrReg m a
    let k : Nat :=
      if pos = 0 then 0
      else if pos = 1 then min 1 r.entries.length
      else r.entries.length
    (Int.ofNat k,
      mshrSetReg m a { r with entries := r.entries.insertIdx k (.ev e false) })

/-- `MSHR::insertWriteback`: the marker goes to the front of the queue. -/
def mshrInsertWriteback (m : Mshr) (a : Addr) (downgrade : Bool) : Mshr :=
  let r := mshrReg m a
  mshrSetReg m a { r with entries := .wb downgrade :: r.entries }

/-- `MSHR::pendingWriteback`: is the front entry a writeback marker? -/
def mshrPendingWriteback (m : Mshr) (a : Addr) : Bool :=
  mshrGetFrontType m a == some .writeback

def mshrRemoveFront (m : Mshr) (a : Addr) : Mshr :=
  let r := mshrReg m a
  mshrSetReg m a { r with entries := r.entries.tail }

def mshrRemoveEntry (m : Mshr) (a : Addr) (i : Nat) : Mshr :=
  let r := mshrReg m a
  mshrSetReg m a { r with entries := r.entries.eraseIdx i }

def mshrIncrementAcksNeeded (m : Mshr) (a : Addr) : Mshr :=
  let r := mshrReg m a
  mshrSetReg m a { r with acksNeeded := r.acksNeeded + 1 }

/-- `MSHR::decrementAcksNeeded`: returns `true` when the counter just
reached zero. -/
def mshrDecrementAcksNeeded (m : Mshr) (a : Addr) : Bool × Mshr :=
  let r := mshrReg m a
  match r.acksNeeded with
  | 0 => (false, m)
  | n + 1 => (n == 0, mshrSetReg m a { r with acksNeeded := n })

def mshrHasData (m : Mshr) (a : Addr) : Bool := (mshrReg m a).dataBuf.isSome

def mshrGetData (m : Mshr) (a : Addr) : List Nat := ((mshrReg m a).dataBuf).getD []

def mshrGetDataDirty (m : Mshr) (a : Addr) : Bool := (mshrReg m a).dataDirty

def mshrSetData (m : Mshr) (a : Addr) (d : List Nat) (dirty : Bool) : Mshr :=
  let r := mshrReg m a
  mshrSetReg m a { r with dataBuf := some d, dataDirty := dirty }

def mshrSetDataDirty (m : Mshr) (a : Addr) (dirty : Bool) : Mshr :=
  let r := mshrReg m a
  mshrSetReg m a { r with dataDirty := dirty }

def mshrClearData (m : Mshr) (a : Addr) : Mshr :=
  let r := mshrReg m a
  mshrSetReg m a { r with dataBuf := none, dataDirty := false }

/-- One outgoing message.  `viaAddr` records that the message was routed by
address (`forwardByAddress`, i.e. towards memory for in-region addresses);
`false` means it was routed by explicit destination or enqueued directly on
the memory queue.  `dirAccess` is the directory-entry-I/O flag of
`memMsgQueue` entries. -/
structure OutMsg where
  time : Nat
  ev : MemEv
  viaAddr : Bool
  dirAccess : Bool := false
deriving DecidableEq, Repr

/-- The directory controller's state: every container the `.cc` mutates,
plus the configuration parameters the handlers read.  The two outgoing
queues are collected in `sent`; `nextId` generates the ids of newly
constructed `MemEvent`s. -/
structure DirCtrl where
  directory : List (Addr × DirEntry) := []
  entryCache : List Addr := []
  entryCacheMaxSize : Nat := 32768
  mshr : Mshr := []
  mshrMaxSize : Option Nat := none
  responses : List (Addr × List (Node × EventId)) := []
  noncacheMemReqs : List (EventId × Node) := []
  dirMemAccesses : List (EventId × Addr) := []
  retryBuffer : List MemEv := []
  addrsThisCycle : List Addr := []
  sent : List OutMsg := []
  timestamp : Nat := 0
  accessLatency : Nat := 0
  mshrLatency : Nat := 0
  lineSize : Nat := 64
  entrySize : Nat := 4
  protocol : Protocol := .MESI
  incoherentSrc : List Node := []
  waitWBAck : Bool := false
  selfName : Node := "dir"
  memTarget : Node := "mem"
  regionStart : Addr := 0
  regionEnd : Addr := 4096
  nextId : Nat := 1000
deriving DecidableEq, Repr

/-- `entryCacheSize` is kept in lockstep with the LRU list in the source;
here it is simply the list's length. -/
def DirCtrl.entryCacheSize (st : DirCtrl) : Nat := st.entryCache.length

/-- Modelled from the spec: region membership (`isRequestAddressValid`).
Interleaving is not exercised by any property here, so the region is the
plain interval. -/
def isRequestAddressValid (st : DirCtrl) (a : Addr) : Bool :=
  st.regionStart ≤ a && a < st.regionEnd

/-- Fresh event-id generation for `new MemEvent(...)`. -/
def freshId (st : DirCtrl) : EventId × DirCtrl :=
  ((st.nextId, 0), { st with nextId := st.nextId + 1 })

/-- `new MemEvent(src, addr, baseAddr, cmd, size)`. -/
def newMemEv (st : DirCtrl) (a ba : Addr) (c : Cmd) (sz : Nat) :
    MemEv × DirCtrl :=
  let (i, st) := freshId st
  ({ cmd := c, addr := a, baseAddr := ba, src := st.selfName, id := i,
     size := sz }, st)

/-- Modelled from the spec: the canonical response command of a request
(`makeResponse` conventions). -/
def respCmd : Cmd → Cmd
  | .GetS => .GetSResp
  | .GetSX => .GetSResp
  | .GetX => .GetXResp
  | .Write => .WriteResp
  | .FlushLine => .FlushLineResp
  | .FlushLineInv => .FlushLineResp
  | .FetchInv => .FetchResp
  | .FetchInvX => .FetchXResp
  | .Inv => .AckInv
  | .ForceInv => .AckInv
  | .PutS => .AckPut
  | .PutE => .AckPut
  | .PutX => .AckPut
  | .PutM => .AckPut
  | c => c

/-- Modelled from the spec: `event->makeResponse(cmd)` — swap source and
destination, record the request id, keep address and size. -/
def makeResponse (st : DirCtrl) (ev : MemEv) (c : Cmd) : MemEv × DirCtrl :=
  let (i, st) := freshId st
  ({ cmd := c, addr := ev.addr, baseAddr := ev.baseAddr, src := ev.dst,
     dst := ev.src, rqstr := ev.rqstr, id := i, responseToId := ev.id,
     size := ev.size }, st)

/-- `forwardByAddress`: route by address (memory side for in-region
addresses) at the given delivery time. -/
def forwardByAddress (st : DirCtrl) (ev : MemEv) (ts : Nat) : DirCtrl :=
  { st with sent := st.sent ++ [{ time := ts, ev := ev, viaAddr := true }] }

/-- `forwardByDestination`: route to the event's explicit destination. -/
def forwardByDestination (st : DirCtrl) (ev : MemEv) (ts : Nat) : DirCtrl :=
  { st with sent := st.sent ++ [{ time := ts, ev := ev, viaAddr := false }] }

/-- Direct insertion into `memMsgQueue` with the `dirAccess` flag
(directory-entry reads and writebacks bypass destination lookup). -/
def enqueueMemMsg (st : DirCtrl) (ev : MemEv) (ts : Nat) : DirCtrl :=
  { st with
    sent := st.sent ++ [{ time := ts, ev := ev, viaAddr := false, dirAccess := true }] }

/-- `getDirEntry`: look up the entry, creating a fresh cached `I` entry on
first reference (the new entry is not yet linked into the LRU list). -/
def getDirEntry (st : DirCtrl) (a : Addr) : DirEntry × DirCtrl :=
  match alookup a st.directory with
  | some e => (e, st)
  | none =>
    let e : DirEntry := {}
    (e, { st with directory := aupdate a e st.directory })

def setDirEntry (st : DirCtrl) (a : Addr) (e : DirEntry) : DirCtrl :=
  { st with directory := aupdate a e st.directory }

/-- Record `responses[addr][key] = id` with `std::map` insert semantics
(no overwrite on either level). -/
def responsesInsert (st : DirCtrl) (a : Addr) (key : Node) (i : EventId) :
    DirCtrl :=
  match alookup a st.responses with
  | none => { st with responses := st.responses ++ [(a, [(key, i)])] }
  | some inner =>
    { st with responses := aupdate a (ainsertNew key i inner) st.responses }

/-- `responses.find(addr)->second.erase(src)` followed by dropping the
outer entry when it became empty. -/
def responsesErase (st : DirCtrl) (a : Addr) (n : Node) : DirCtrl :=
  match alookup a st.responses with
  | none => st
  | some inner =>
    let inner' := serase n inner
    if inner'.isEmpty then { st with responses := aerase a st.responses }
    else { st with responses := aupdate a inner' st.responses }

/-- Lookup of `responses[addr][node]`, as the NACK path performs it. -/
def respLookup (st : DirCtrl) (a : Addr) (n : Node) : Option EventId :=
  (alookup a st.responses).bind (fun inner => slookup n inner)

/-- `allocateMSHR(event, fwdReq, pos)`. -/
def allocateMSHR (st : DirCtrl) (ev : MemEv) (fwd : Bool) (pos : Int) :
    MemEventStatus × DirCtrl :=
  let (endPos, m') := mshrInsertEvent st.mshrMaxSize st.mshr ev.baseAddr ev pos fwd
  if endPos = -1 then (.Reject, st)
  else if endPos ≠ 0 then (.Stall, { st with mshr := m' })
  else (.OK, { st with mshr := m' })

/-- `sendEntryToMemory`: write the directory entry back as a `PutE` with
`F_NORESPONSE` (the event is built at address 0 in the source). -/
def sendEntryToMemory (st : DirCtrl) : DirCtrl :=
  let (me, st) := newMemEv st 0 0 .PutE st.lineSize
  let me := { me with size := st.entrySize, noResponse := true, dst := st.memTarget }
  enqueueMemMsg st me (st.timestamp + st.accessLatency)

/-- `issueMemoryRequest(event, entry, lineGranularity)`: clone the request,
stamp our name, optionally widen to a full line, schedule it by address and
mark the MSHR front in progress. -/
def issueMemoryRequest (st : DirCtrl) (ev : MemEv) (lineGranularity : Bool) :
    DirCtrl :=
  let reqEvent := { ev with src := st.selfName,
                            size := if lineGranularity then st.lineSize else ev.size }
  let st := forwardByAddress st reqEvent (st.timestamp + st.accessLatency)
  { st with mshr := mshrSetInProgress st.mshr ev.baseAddr }

/-- `issueFlush(event)`. -/
def issueFlush (st : DirCtrl) (ev : MemEv) : DirCtrl :=
  let a := ev.baseAddr
  let flush := { ev with src := st.selfName }
  let (flush, st) :=
    if mshrHasData st.mshr a && mshrGetDataDirty st.mshr a then
      ({ flush with evict := true, payload := mshrGetData st.mshr a, dirty := true },
       { st with mshr := mshrClearData st.mshr a })
    else
      ({ flush with payload := [] }, st)
  let st := { st with mshr := mshrSetInProgress st.mshr a }
  forwardByAddress st flush (st.timestamp + st.accessLatency)

/-- `issueFetch(event, entry, cmd)`: a fetch aimed at the owner; the
expected response is recorded under the owner's name. -/
def issueFetch (st : DirCtrl) (ev : MemEv) (entry : DirEntry) (c : Cmd) :
    DirCtrl :=
  let a := ev.baseAddr
  let (fetch, st) := newMemEv st ev.addr a c st.lineSize
  let fetch := { fetch with dst := entry.owner }
  let st := responsesInsert st a entry.owner fetch.id
  let st := { st with mshr := mshrIncrementAcksNeeded st.mshr a }
  forwardByDestination st fetch (st.timestamp + st.accessLatency)

/-- `issueInvalidation(dst, event, entry, cmd)`.  Note: the source inserts
the expected response under `entry->getOwner()`, not under `dst`. -/
def issueInvalidation (st : DirCtrl) (dst : Node) (evOpt : Option MemEv)
    (entry : DirEntry) (a : Addr) (c : Cmd) : DirCtrl :=
  let (inv, st) := newMemEv st a a c st.lineSize
  let inv :=
    match evOpt with
    | some ev => { inv with rqstr := ev.rqstr }
    | none => { inv with rqstr := st.selfName }
  let inv := { inv with dst := dst }
  let st := { st with mshr := mshrIncrementAcksNeeded st.mshr a }
  let st := responsesInsert st a entry.owner inv.id
  forwardByDestination st inv (st.timestamp + st.accessLatency)

/-- `issueInvalidations(event, entry, cmd)`: one invalidation per sharer
other than the requester. -/
def issueInvalidationsGo (st : DirCtrl) (rqstr : Node) (ev : MemEv)
    (entry : DirEntry) (a : Addr) (c : Cmd) : List Node → DirCtrl
  | [] => st
  | n :: rest =>
    if n = rqstr then issueInvalidationsGo st rqstr ev entry a c rest
    else issueInvalidationsGo (issueInvalidation st n (some ev) entry a c) rqstr ev entry a c rest

def issueInvalidations (st : DirCtrl) (ev : MemEv) (entry : DirEntry)
    (a : Addr) (c : Cmd) : DirCtrl :=
  issueInvalidationsGo st ev.src ev entry a c entry.sharers

/-- `sendDataResponse(event, entry, data, cmd, flags)` (flags default 0). -/
def sendDataResponse (st : DirCtrl) (ev : MemEv) (data : List Nat) (c : Cmd) :
    DirCtrl :=
  let (respEv, st) := makeResponse st ev c
  let respEv := { respEv with size := st.lineSize, payload := data, memFlags := 0 }
  forwardByDestination st respEv (st.timestamp + st.mshrLatency)

/-- `sendResponse(event, flags, memflags)`. -/
def sendResponse (st : DirCtrl) (ev : MemEv) (flags memflags : Nat) : DirCtrl :=
  let (respEv, st) := makeResponse st ev (respCmd ev.cmd)
  let respEv := { respEv with size := st.lineSize, memFlags := memflags, flags := flags }
  forwardByDestination st respEv (st.timestamp + st.mshrLatency)

/-- `writebackData(event)`: `PutM` carrying the event's payload. -/
def writebackData (st : DirCtrl) (ev : MemEv) : DirCtrl :=
  let (wb, st) := newMemEv st ev.baseAddr ev.baseAddr .PutM st.lineSize
  let wb := { wb with rqstr := ev.rqstr, payload := ev.payload, dirty := ev.dirty }
  let st :=
    if st.waitWBAck then { st with mshr := mshrInsertWriteback st.mshr ev.baseAddr false }
    else st
  forwardByAddress st wb (st.timestamp + st.accessLatency)

/-- `writebackDataFromMSHR(addr)`: `PutM` carrying the buffered data. -/
def writebackDataFromMSHR (st : DirCtrl) (a : Addr) : DirCtrl :=
  let (wb, st) := newMemEv st a a .PutM st.lineSize
  let wb := { wb with payload := mshrGetData st.mshr a,
                       dirty := mshrGetDataDirty st.mshr a }
  let st := { st with mshr := mshrSetDataDirty st.mshr a false }
  let st :=
    if st.waitWBAck then { st with mshr := mshrInsertWriteback st.mshr a false }
    else st
  forwardByAddress st wb (st.timestamp + st.mshrLatency)

/-- `sendFetchResponse(event)`: respond with the buffered data. -/
def sendFetchResponse (st : DirCtrl) (ev : MemEv) : DirCtrl :=
  let a := ev.baseAddr
  let (ack, st) := makeResponse st ev (respCmd ev.cmd)
  let ack := { ack with payload := mshrGetData st.mshr a,
                        dirty := mshrGetDataDirty st.mshr a }
  let st := { st with mshr := mshrClearData st.mshr a }
  forwardByDestination st ack (st.timestamp + st.accessLatency)

/-- `sendAckInv(event)`. -/
def sendAckInv (st : DirCtrl) (ev : MemEv) : DirCtrl :=
  let a := ev.baseAddr
  let (ack, st) := makeResponse st ev .AckInv
  let st :=
    if mshrHasData st.mshr a then { st with mshr := mshrClearData st.mshr a } else st
  forwardByDestination st ack (st.timestamp + st.accessLatency)

/-- `sendAckPut(event)`. -/
def sendAckPut (st : DirCtrl) (ev : MemEv) : DirCtrl :=
  let (ack, st) := makeResponse st ev .AckPut
  forwardByDestination st ack (st.timestamp + st.accessLatency)

/-- `sendNACK(event)`: `makeNACKResponse` carries the nacked event back. -/
def sendNACK (st : DirCtrl) (ev : MemEv) : DirCtrl :=
  let (nack, st) := makeResponse st ev .NACK
  forwardByDestination st nack (st.timestamp + st.accessLatency)

/-- The retry check shared by `cleanUpAfterRequest` and
`cleanUpAfterResponse` (the identical trailing block of both): if the MSHR
still holds entries for the address and the front is an idle event with no
outstanding acks, push it onto the retry buffer. -/
def retryNextIfReady (st : DirCtrl) (a : Addr) : DirCtrl :=
  if mshrExists st.mshr a && (mshrGetFrontType st.mshr a == some .event) then
    if !mshrGetInProgress st.mshr a && mshrGetAcksNeeded st.mshr a == 0 then
      match mshrGetFrontEvent st.mshr a with
      | some f => { st with retryBuffer := st.retryBuffer ++ [f] }
      | none => st
    else st
  else st

/-- `cleanUpAfterRequest(event, inMSHR)`. -/
def cleanUpAfterRequest (st : DirCtrl) (ev : MemEv) (inMSHR : Bool) : DirCtrl :=
  let a := ev.baseAddr
  let st :=
    if inMSHR then
      if mshrGetFrontType st.mshr a = some .event then
        { st with mshr := mshrRemoveFront st.mshr a }
      else
        { st with mshr := mshrRemoveEntry st.mshr a 1 }
    else st
  retryNextIfReady st a

/-- `cleanUpAfterResponse(event, inMSHR)`. -/
def cleanUpAfterResponse (st : DirCtrl) (ev : MemEv) : DirCtrl :=
  let a := ev.baseAddr
  let st := { st with mshr := mshrRemoveFront st.mshr a }
  retryNextIfReady st a

/-- Mark the directory entry at `a` uncached (`oldEntry->setCached(false)`
through the entry pointer). -/
def setCachedFalse (st : DirCtrl) (a : Addr) : DirCtrl :=
  match alookup a st.directory with
  | some e => setDirEntry st a { e with cached := false }
  | none => st

/-- The eviction loop of `updateCache`: while the cache is over capacity,
pop the least-recently-used entry — unless it has MSHR activity, in which
case the loop stops ( `break` in the source).  Each iteration shortens the
LRU list by one, so the list's length bounds the iteration count and is
passed as structural fuel (never exhausted: see `evictLoop_spec`). -/
def evictLoop : Nat → DirCtrl → DirCtrl
  | 0, st => st
  | fuel + 1, st =>
    if st.entryCache.length > st.entryCacheMaxSize then
      match st.entryCache.getLast? with
      | none => st
      | some old =>
        if mshrExists st.mshr old then st
        else
          let st' := { st with entryCache := st.entryCache.dropLast }
          evictLoop fuel (sendEntryToMemory (setCachedFalse st' old))
    else st

/-- `updateCache(entry)`: unlink the touched entry, delete it if it is in
state `I`, otherwise move it to the front and run the eviction loop. -/
def updateCache (st : DirCtrl) (a : Addr) : DirCtrl :=
  match alookup a st.directory with
  | none => st
  | some entry =>
    if st.entryCacheMaxSize = 0 then
      sendEntryToMemory st
    else
      let st :=
        if st.entryCache.contains a then
          { st with entryCache := st.entryCache.erase a }
        else st
      if entry.state = .I then
        { st with directory := aerase a st.directory }
      else
        evictLoop (a :: st.entryCache).length
          { st with entryCache := a :: st.entryCache }

/-- Clear the `evict` bit of the event with the given id wherever it sits
in the MSHR queue (`event->setEvict(false)` mutates the queued event
through its pointer in the source). -/
def mshrSetEvictFalse (m : Mshr) (a : Addr) (i : EventId) : Mshr :=
  let r := mshrReg m a
  let entries := r.entries.map (fun it =>
    match it with
    | .ev e p => if e.id = i then .ev { e with evict := false } p else .ev e p
    | .wb d => .wb d)
  mshrSetReg m a { r with entries := entries }

/-- `retrieveDirEntry(entry, event, inMSHR)`: allocate an MSHR slot, move
the entry to its directory-fetch state and issue the entry read. -/
def retrieveDirEntry (st : DirCtrl) (entry : DirEntry) (ev : MemEv)
    (inMSHR : Bool) : Option (Bool × DirCtrl) :=
  let (status, st) := if inMSHR then (.OK, st) else allocateMSHR st ev false (-1)
  match status with
  | .Reject => some (false, st)
  | .Stall => some (true, st)
  | .OK =>
    match entry.state with
    | .I_d | .S_d | .M_d => some (true, st)
    | .I | .S | .M =>
      let newState : CohState :=
        match entry.state with
        | .I => .I_d
        | .S => .S_d
        | _ => .M_d
      let st := setDirEntry st ev.baseAddr { entry with state := newState }
      let (me, st) := newMemEv st 0 0 .GetS st.lineSize
      let me := { me with size := st.entrySize, addrGlobal := false }
      let st := { st with dirMemAccesses := st.dirMemAccesses ++ [(me.id, ev.baseAddr)] }
      some (true, enqueueMemMsg st me (st.timestamp + st.accessLatency))
    | _ => none

/-- `handleGetS(event, inMSHR)`. -/
def handleGetS (st : DirCtrl) (ev : MemEv) (inMSHR : Bool) :
    Option (Bool × DirCtrl) :=
  let a := ev.baseAddr
  let (entry, st) := getDirEntry st a
  if !entry.cached then retrieveDirEntry st entry ev inMSHR
  else
  let st :=
    if mshrHasData st.mshr a && mshrGetDataDirty st.mshr a then
      writebackDataFromMSHR st a
    else st
  match entry.state with
  | .I =>
    if mshrHasData st.mshr a && inMSHR then
      let st :=
        if st.incoherentSrc.contains ev.src then
          sendDataResponse st ev (mshrGetData st.mshr a) .GetSResp
        else if st.protocol = .MESI then
          let st := setDirEntry st a { entry with state := .M, owner := ev.src }
          let st := sendDataResponse st ev (mshrGetData st.mshr a) .GetXResp
          { st with mshr := mshrClearData st.mshr a }
        else
          let st := setDirEntry st a ({ entry.addSharer ev.src with state := .S })
          sendDataResponse st ev (mshrGetData st.mshr a) .GetSResp
      some (true, cleanUpAfterRequest st ev inMSHR)
    else
      let (status, st) := if inMSHR then (.OK, st) else allocateMSHR st ev false (-1)
      let st :=
        if status = .OK then
          let st := issueMemoryRequest st ev true
          setDirEntry st a { entry with state := .IS }
        else st
      let st := if status = .Reject then sendNACK st ev else st
      some (true, st)
  | .S =>
    if mshrHasData st.mshr a then
      let entry :=
        if st.incoherentSrc.contains ev.src then entry else entry.addSharer ev.src
      let st := setDirEntry st a entry
      let st := sendDataResponse st ev (mshrGetData st.mshr a) .GetSResp
      some (true, cleanUpAfterRequest st ev inMSHR)
    else
      let (status, st) := if inMSHR then (.OK, st) else allocateMSHR st ev false (-1)
      let st :=
        if status = .OK then
          let st := issueMemoryRequest st ev true
          setDirEntry st a { entry with state := .S_D }
        else st
      let st := if status = .Reject then sendNACK st ev else st
      some (true, st)
  | .M =>
    let (status, st) := if inMSHR then (.OK, st) else allocateMSHR st ev false (-1)
    let st :=
      if status = .OK then
        let st := issueFetch st ev entry .FetchInvX
        setDirEntry st a { entry with state := .M_InvX }
      else st
    let st := if status = .Reject then sendNACK st ev else st
    some (true, st)
  | _ =>
    let (status, st) := if inMSHR then (.OK, st) else allocateMSHR st ev false (-1)
    let st := if status = .Reject then sendNACK st ev else st
    some (true, st)

/-- `handleGetX(event, inMSHR)` (also used for `GetSX`). -/
def handleGetX (st : DirCtrl) (ev : MemEv) (inMSHR : Bool) :
    Option (Bool × DirCtrl) :=
  let a := ev.baseAddr
  let (entry, st) := getDirEntry st a
  if !entry.cached then retrieveDirEntry st entry ev inMSHR
  else
  let st :=
    if mshrHasData st.mshr a && mshrGetDataDirty st.mshr a then
      writebackDataFromMSHR st a
    else st
  match entry.state with
  | .I =>
    if mshrHasData st.mshr a && inMSHR then
      let st :=
        if st.incoherentSrc.contains ev.src then st
        else setDirEntry st a { entry with state := .M, owner := ev.src }
      let st := sendDataResponse st ev (mshrGetData st.mshr a) .GetXResp
      let st := { st with mshr := mshrClearData st.mshr a }
      some (true, cleanUpAfterRequest st ev inMSHR)
    else
      let (status, st) := if inMSHR then (.OK, st) else allocateMSHR st ev false (-1)
      let st :=
        if status = .OK then
          let st := setDirEntry st a { entry with state := .IM }
          issueMemoryRequest st ev true
        else st
      let st := if status = .Reject then sendNACK st ev else st
      some (true, st)
  | .S =>
    if entry.isSharer ev.src then
      if entry.getSharerCount = 1 then
        let st :=
          if mshrHasData st.mshr a then { st with mshr := mshrClearData st.mshr a }
          else st
        let entry := { (entry.removeSharer ev.src) with state := .M, owner := ev.src }
        let st := setDirEntry st a entry
        let st := sendResponse st ev 0 0
        some (true, cleanUpAfterRequest st ev inMSHR)
      else
        let (status, st) := if inMSHR then (.OK, st) else allocateMSHR st ev false (-1)
        let st :=
          if status = .OK then
            let st :=
              if mshrHasData st.mshr a then { st with mshr := mshrClearData st.mshr a }
              else st
            let st := setDirEntry st a { entry with state := .S_Inv }
            issueInvalidations st ev entry a .Inv
          else st
        let st := if status = .Reject then sendNACK st ev else st
        some (true, st)
    else
      let (status, st) := if inMSHR then (.OK, st) else allocateMSHR st ev false (-1)
      let st :=
        if status = .OK then
          let st :=
            if mshrHasData st.mshr a then
              setDirEntry st a { entry with state := .S_Inv }
            else
              let st := setDirEntry st a { entry with state := .SM_Inv }
              issueMemoryRequest st ev true
          issueInvalidations st ev entry a .Inv
        else st
      let st := if status = .Reject then sendNACK st ev else st
      some (true, st)
  | .M =>
    let (status, st) := if inMSHR then (.OK, st) else allocateMSHR st ev false (-1)
    let st :=
      if status = .OK then
        let st := setDirEntry st a { entry with state := .M_Inv }
        issueFetch st ev entry .FetchInv
      else st
    let st := if status = .Reject then sendNACK st ev else st
    some (true, st)
  | _ =>
    let (status, st) := if inMSHR then (.OK, st) else allocateMSHR st ev false (-1)
    let st := if status = .Reject then sendNACK st ev else st
    some (true, st)

/-- `handleGetSX` delegates to `handleGetX`. -/
def handleGetSX (st : DirCtrl) (ev : MemEv) (inMSHR : Bool) :
    Option (Bool × DirCtrl) :=
  handleGetX st ev inMSHR

/-- `handleWrite(event, inMSHR)`. -/
def handleWrite (st : DirCtrl) (ev : MemEv) (inMSHR : Bool) :
    Option (Bool × DirCtrl) :=
  let a := ev.baseAddr
  let (entry, st) := getDirEntry st a
  if !entry.cached then retrieveDirEntry st entry ev inMSHR
  else
  match entry.state with
  | .I =>
    let st :=
      if mshrHasData st.mshr a then
        let st :=
          if mshrGetDataDirty st.mshr a then writebackDataFromMSHR st a else st
        { st with mshr := mshrClearData st.mshr a }
      else st
    let (status, st) := if inMSHR then (.OK, st) else allocateMSHR st ev false (-1)
    let st :=
      if status = .OK then
        let st := setDirEntry st a { entry with state := .IM }
        issueMemoryRequest st ev false
      else st
    let st := if status = .Reject then sendNACK st ev else st
    some (true, st)
  | .S =>
    let st :=
      if mshrHasData st.mshr a then
        let st :=
          if mshrGetDataDirty st.mshr a then writebackDataFromMSHR st a else st
        { st with mshr := mshrClearData st.mshr a }
      else st
    let (status, st) := if inMSHR then (.OK, st) else allocateMSHR st ev false (-1)
    let st :=
      if status = .OK then
        let st := setDirEntry st a { entry with state := .S_Inv }
        issueInvalidations st ev entry a .Inv
      else st
    let st := if status = .Reject then sendNACK st ev else st
    some (true, st)
  | .M =>
    let st :=
      if mshrHasData st.mshr a then
        let st :=
          if mshrGetDataDirty st.mshr a then writebackDataFromMSHR st a else st
        { st with mshr := mshrClearData st.mshr a }
      else st
    let (status, st) := if inMSHR then (.OK, st) else allocateMSHR st ev false (-1)
    let st :=
      if status = .OK then
        let st := setDirEntry st a { entry with state := .M_Inv }
        issueFetch st ev entry .FetchInv
      else st
    let st := if status = .Reject then sendNACK st ev else st
    some (true, st)
  | _ =>
    let (status, st) := if inMSHR then (.OK, st) else allocateMSHR st ev false (-1)
    let st := if status = .Reject then sendNACK st ev else st
    some (true, st)

/-- `handleFlushLine(event, inMSHR)`. -/
def handleFlushLine (st : DirCtrl) (ev : MemEv) (inMSHR : Bool) :
    Option (Bool × DirCtrl) :=
  let a := ev.baseAddr
  let (entry, st) := getDirEntry st a
  if !entry.cached then retrieveDirEntry st entry ev inMSHR
  else
  let (status, st) := if inMSHR then (.OK, st) else allocateMSHR st ev false (-1)
  match entry.state with
  | .I =>
    let st := if status = .OK then issueFlush st ev else st
    let st := if status = .Reject then sendNACK st ev else st
    some (true, st)
  | .S =>
    let st :=
      if status = .OK then
        let st := issueFlush st ev
        setDirEntry st a { entry with state := .S_B }
      else st
    let st := if status = .Reject then sendNACK st ev else st
    some (true, st)
  | .M =>
    if status = .OK then
      if ev.evict then
        let entry := (entry.removeOwner).addSharer ev.src
        let st := setDirEntry st a entry
        let st := { st with mshr := mshrSetData st.mshr a ev.payload ev.dirty }
        let st := { st with mshr := mshrSetEvictFalse st.mshr a ev.id }
        let ev := { ev with evict := false }
        let st := issueFlush st ev
        let st := setDirEntry st a { entry with state := .S_B }
        some (true, st)
      else if entry.hasOwner then
        let st := issueFetch st ev entry .FetchInvX
        let st := setDirEntry st a { entry with state := .M_InvX }
        some (true, st)
      else
        let st := issueFlush st ev
        let st := setDirEntry st a { entry with state := .S_B }
        some (true, st)
    else
      let st := if status = .Reject then sendNACK st ev else st
      some (true, st)
  | .M_Inv =>
    let st :=
      if ev.evict then
        let entry := (entry.removeOwner).addSharer ev.src
        let st := setDirEntry st a entry
        let st := { st with mshr := mshrSetData st.mshr a ev.payload ev.dirty }
        let st := { st with mshr := mshrSetEvictFalse st.mshr a ev.id }
        setDirEntry st a { entry with state := .S_Inv }
      else st
    let st := if status = .Reject then sendNACK st ev else st
    some (true, st)
  | .M_InvX =>
    if ev.evict then
      let entry := (entry.removeOwner).addSharer ev.src
      let st := setDirEntry st a entry
      let st := { st with mshr := mshrSetData st.mshr a ev.payload ev.dirty }
      let st := { st with mshr := mshrSetEvictFalse st.mshr a ev.id }
      let st := setDirEntry st a { entry with state := .S }
      let (_, m') := mshrDecrementAcksNeeded st.mshr a
      let st := { st with mshr := m' }
      let st := responsesErase st a ev.src
      match mshrGetFrontEvent st.mshr a with
      | none => none
      | some f =>
        let st := { st with retryBuffer := st.retryBuffer ++ [f] }
        let st := if status = .Reject then sendNACK st ev else st
        some (true, st)
    else
      let st := if status = .Reject then sendNACK st ev else st
      some (true, st)
  | _ =>
    let st := if status = .Reject then sendNACK st ev else st
    some (true, st)

/-- `handleFlushLineInv(event, inMSHR)`. -/
def handleFlushLineInv (st : DirCtrl) (ev : MemEv) (inMSHR : Bool) :
    Option (Bool × DirCtrl) :=
  let a := ev.baseAddr
  let (entry, st) := getDirEntry st a
  if !entry.cached then retrieveDirEntry st entry ev inMSHR
  else
  let (status, st) := if inMSHR then (.OK, st) else allocateMSHR st ev false (-1)
  match entry.state with
  | .I =>
    let st := if status = .OK then issueFlush st ev else st
    let st := if status = .Reject then sendNACK st ev else st
    some (true, st)
  | .S =>
    let st :=
      if status = .OK then
        let (entry, st) :=
          if ev.evict then
            let entry := entry.removeSharer ev.src
            let st := setDirEntry st a entry
            let st := { st with mshr := mshrSetEvictFalse st.mshr a ev.id }
            (entry, st)
          else (entry, st)
        if entry.hasSharers then
          let st := setDirEntry st a { entry with state := .S_Inv }
          issueInvalidations st ev entry a .Inv
        else
          let st := setDirEntry st a { entry with state := .I_B }
          issueFlush st ev
      else st
    let st := if status = .Reject then sendNACK st ev else st
    some (true, st)
  | .M =>
    let st :=
      if status = .OK then
        let (entry, st) :=
          if ev.evict then
            let entry := entry.removeOwner
            let st := setDirEntry st a entry
            let st := { st with mshr := mshrSetData st.mshr a ev.payload ev.dirty }
            let st := { st with mshr := mshrSetEvictFalse st.mshr a ev.id }
            (entry, st)
          else (entry, st)
        if entry.hasOwner then
          let st := setDirEntry st a { entry with state := .M_Inv }
          issueFetch st ev entry .FetchInv
        else
          let st := setDirEntry st a { entry with state := .I_B }
          issueFlush st ev
      else st
    let st := if status = .Reject then sendNACK st ev else st
    some (true, st)
  | .S_D =>
    let st :=
      if ev.evict then
        let entry := entry.removeSharer ev.src
        let st := setDirEntry st a entry
        let st := { st with mshr := mshrSetEvictFalse st.mshr a ev.id }
        if !entry.hasSharers then setDirEntry st a { entry with state := .IS } else st
      else st
    let st := if status = .Reject then sendNACK st ev else st
    some (true, st)
  | .S_B =>
    let st :=
      if ev.evict then
        let entry := entry.removeSharer ev.src
        let st := setDirEntry st a entry
        let st := { st with mshr := mshrSetEvictFalse st.mshr a ev.id }
        if !entry.hasSharers then setDirEntry st a { entry with state := .I } else st
      else st
    let st := if status = .Reject then sendNACK st ev else st
    some (true, st)
  | .M_InvX =>
    if ev.evict then
      let entry := entry.removeOwner
      let st := setDirEntry st a entry
      let st := { st with mshr := mshrSetData st.mshr a ev.payload ev.dirty }
      let st := { st with mshr := mshrSetEvictFalse st.mshr a ev.id }
      let st := responsesErase st a ev.src
      let (done, m') := mshrDecrementAcksNeeded st.mshr a
      let st := { st with mshr := m' }
      if done then
        let st := setDirEntry st a { entry with state := .I }
        match mshrGetFrontEvent st.mshr a with
        | none => none
        | some f =>
          let st := { st with retryBuffer := st.retryBuffer ++ [f] }
          let st := if status = .Reject then sendNACK st ev else st
          some (true, st)
      else
        let st := if status = .Reject then sendNACK st ev else st
        some (true, st)
    else
      let st := if status = .Reject then sendNACK st ev else st
      some (true, st)
  | .SD_Inv =>
    if ev.evict then
      let entry := entry.removeSharer ev.src
      let st := setDirEntry st a entry
      let st := { st with mshr := mshrSetEvictFalse st.mshr a ev.id }
      let st := responsesErase st a ev.src
      let (done, m') := mshrDecrementAcksNeeded st.mshr a
      let st := { st with mshr := m' }
      if done then
        let st :=
          if entry.hasSharers then setDirEntry st a { entry with state := .S_D }
          else setDirEntry st a { entry with state := .IS }
        match mshrGetFrontEvent st.mshr a with
        | none => none
        | some f =>
          let st := { st with retryBuffer := st.retryBuffer ++ [f] }
          let st := if status = .Reject then sendNACK st ev else st
          some (true, st)
      else
        let st := if status = .Reject then sendNACK st ev else st
        some (true, st)
    else
      let st := if status = .Reject then sendNACK st ev else st
      some (true, st)
  | .SM_Inv =>
    let st :=
      if ev.evict then
        let entry := entry.removeSharer ev.src
        let st := setDirEntry st a entry
        let st := { st with mshr := mshrSetEvictFalse st.mshr a ev.id }
        let st := responsesErase st a ev.src
        let (done, m') := mshrDecrementAcksNeeded st.mshr a
        let st := { st with mshr := m' }
        if done then setDirEntry st a { entry with state := .IM } else st
      else st
    let st := if status = .Reject then sendNACK st ev else st
    some (true, st)
  | .S_Inv =>
    if ev.evict then
      let entry := entry.removeSharer ev.src
      let st := setDirEntry st a entry
      let st := { st with mshr := mshrSetEvictFalse st.mshr a ev.id }
      let st := responsesErase st a ev.src
      let (done, m') := mshrDecrementAcksNeeded st.mshr a
      let st := { st with mshr := m' }
      if done then
        let st :=
          if entry.hasSharers then setDirEntry st a { entry with state := .S }
          else setDirEntry st a { entry with state := .I }
        match mshrGetFrontEvent st.mshr a with
        | none => none
        | some f =>
          let st := { st with retryBuffer := st.retryBuffer ++ [f] }
          let st := if status = .Reject then sendNACK st ev else st
          some (true, st)
      else
        let st := if status = .Reject then sendNACK st ev else st
        some (true, st)
    else
      let st := if status = .Reject then sendNACK st ev else st
      some (true, st)
  | .M_Inv =>
    if ev.evict then
      let entry := entry.removeSharer ev.src
      let st := setDirEntry st a entry
      let st := { st with mshr := mshrSetEvictFalse st.mshr a ev.id }
      let st := responsesErase st a ev.src
      let (done, m') := mshrDecrementAcksNeeded st.mshr a
      let st := { st with mshr := m' }
      if done then
        let st := setDirEntry st a { entry with state := .I }
        match mshrGetFrontEvent st.mshr a with
        | none => none
        | some f =>
          let st := { st with retryBuffer := st.retryBuffer ++ [f] }
          let st := if status = .Reject then sendNACK st ev else st
          some (true, st)
      else
        let st := if status = .Reject then sendNACK st ev else st
        some (true, st)
    else
      let st := if status = .Reject then sendNACK st ev else st
      some (true, st)
  | _ =>
    let st := if status = .Reject then sendNACK st ev else st
    some (true, st)

/-- `handlePutS(event, inMSHR)`. -/
def handlePutS (st : DirCtrl) (ev : MemEv) (inMSHR : Bool) :
    Option (Bool × DirCtrl) :=
  let a := ev.baseAddr
  let (entry, st) := getDirEntry st a
  if !entry.cached then retrieveDirEntry st entry ev inMSHR
  else
  let entry := entry.removeSharer ev.src
  let st := setDirEntry st a entry
  let st := sendAckPut st ev
  let st := responsesErase st a ev.src
  let finish (st : DirCtrl) (update : Bool) : Option (Bool × DirCtrl) :=
    let st := cleanUpAfterRequest st ev inMSHR
    let st := if update then updateCache st a else st
    some (true, st)
  match entry.state with
  | .S =>
    let st :=
      if !entry.hasSharers then setDirEntry st a { entry with state := .I } else st
    finish st true
  | .S_B =>
    let st :=
      if !entry.hasSharers then setDirEntry st a { entry with state := .I } else st
    finish st false
  | .S_D =>
    let st :=
      if !entry.hasSharers then setDirEntry st a { entry with state := .IS } else st
    finish st false
  | .S_Inv =>
    let (done, m') := mshrDecrementAcksNeeded st.mshr a
    let st := { st with mshr := m' }
    if done then
      let st :=
        if entry.hasSharers then setDirEntry st a { entry with state := .S }
        else setDirEntry st a { entry with state := .I }
      match mshrGetFrontEvent st.mshr a with
      | none => none
      | some f =>
        let st := { st with retryBuffer := st.retryBuffer ++ [f] }
        let st := { st with mshr := mshrSetInProgress st.mshr a }
        finish st false
    else finish st false
  | .SD_Inv =>
    let (done, m') := mshrDecrementAcksNeeded st.mshr a
    let st := { st with mshr := m' }
    let st :=
      if done then
        if entry.hasSharers then setDirEntry st a { entry with state := .S_D }
        else setDirEntry st a { entry with state := .IS }
      else st
    finish st false
  | .SM_Inv =>
    let (done, m') := mshrDecrementAcksNeeded st.mshr a
    let st := { st with mshr := m' }
    let st := if done then setDirEntry st a { entry with state := .IM } else st
    finish st false
  | _ => none

/-- `handlePutX(event, inMSHR)`. -/
def handlePutX (st : DirCtrl) (ev : MemEv) (inMSHR : Bool) :
    Option (Bool × DirCtrl) :=
  let a := ev.baseAddr
  let (entry, st) := getDirEntry st a
  if !entry.cached then retrieveDirEntry st entry ev inMSHR
  else
  let entry := (entry.removeOwner).addSharer ev.src
  let st := setDirEntry st a entry
  let st := sendAckPut st ev
  let finish (st : DirCtrl) (update : Bool) : Option (Bool × DirCtrl) :=
    let st := cleanUpAfterRequest st ev inMSHR
    let st := if update then updateCache st a else st
    some (true, st)
  match entry.state with
  | .M =>
    let st := if ev.dirty then writebackData st ev else st
    let st := setDirEntry st a { entry with state := .S }
    finish st true
  | .M_Inv =>
    let st := { st with mshr := mshrSetData st.mshr a ev.payload ev.dirty }
    let st := setDirEntry st a { entry with state := .S_Inv }
    finish st false
  | .M_InvX =>
    let (_, m') := mshrDecrementAcksNeeded st.mshr a
    let st := { st with mshr := m' }
    let st := responsesErase st a ev.src
    let st := { st with mshr := mshrSetData st.mshr a ev.payload ev.dirty }
    let st := setDirEntry st a { entry with state := .S }
    finish st false
  | _ => none

/-- `handlePutE(event, inMSHR)`. -/
def handlePutE (st : DirCtrl) (ev : MemEv) (inMSHR : Bool) :
    Option (Bool × DirCtrl) :=
  let a := ev.baseAddr
  let (entry, st) := getDirEntry st a
  if !entry.cached then retrieveDirEntry st entry ev inMSHR
  else
  let entry := entry.removeOwner
  let st := setDirEntry st a entry
  let st := sendAckPut st ev
  let finish (st : DirCtrl) (update : Bool) : Option (Bool × DirCtrl) :=
    let st := cleanUpAfterRequest st ev inMSHR
    let st := if update then updateCache st a else st
    some (true, st)
  match entry.state with
  | .M =>
    let st := setDirEntry st a { entry with state := .I }
    finish st true
  | .M_Inv | .M_InvX =>
    let (_, m') := mshrDecrementAcksNeeded st.mshr a
    let st := { st with mshr := m' }
    let st := responsesErase st a ev.src
    let st := { st with mshr := mshrSetData st.mshr a ev.payload ev.dirty }
    let st := setDirEntry st a { entry with state := .I }
    finish st false
  | _ => none

/-- `handlePutM(event, inMSHR)`. -/
def handlePutM (st : DirCtrl) (ev : MemEv) (inMSHR : Bool) :
    Option (Bool × DirCtrl) :=
  let a := ev.baseAddr
  let (entry, st) := getDirEntry st a
  if !entry.cached then retrieveDirEntry st entry ev inMSHR
  else
  let entry := entry.removeOwner
  let st := setDirEntry st a entry
  let st := sendAckPut st ev
  let finish (st : DirCtrl) (update : Bool) : Option (Bool × DirCtrl) :=
    let st := cleanUpAfterRequest st ev inMSHR
    let st := if update then updateCache st a else st
    some (true, st)
  match entry.state with
  | .M =>
    let st := writebackData st ev
    let st := setDirEntry st a { entry with state := .I }
    finish st true
  | .M_Inv | .M_InvX =>
    let (_, m') := mshrDecrementAcksNeeded st.mshr a
    let st := { st with mshr := m' }
    let st := responsesErase st a ev.src
    let st := { st with mshr := mshrSetData st.mshr a ev.payload ev.dirty }
    let st := setDirEntry st a { entry with state := .I }
    finish st false
  | _ => none

/-- `handleFetchInv(event, inMSHR)` — a shootdown arriving from the memory
side. -/
def handleFetchInv (st : DirCtrl) (ev : MemEv) (inMSHR : Bool) :
    Option (Bool × DirCtrl) :=
  let a := ev.baseAddr
  let (entry, st) := getDirEntry st a
  if !entry.cached then retrieveDirEntry st entry ev inMSHR
  else
  match entry.state with
  | .I =>
    let frontIsFlushInv :=
      mshrExists st.mshr a &&
        (match mshrGetFrontEvent st.mshr a with
         | some f => f.cmd == .FlushLineInv
         | none => false)
    let st :=
      if !(mshrPendingWriteback st.mshr a || frontIsFlushInv) then
        if mshrHasData st.mshr a && mshrGetDataDirty st.mshr a then
          sendFetchResponse st ev
        else sendAckInv st ev
      else sendAckInv st ev
    some (true, cleanUpAfterRequest st ev inMSHR)
  | .S =>
    let (status, st) := if inMSHR then (.OK, st) else allocateMSHR st ev true (-1)
    let st :=
      if status = .OK then
        let st := issueInvalidations st ev entry a .Inv
        setDirEntry st a { entry with state := .S_Inv }
      else st
    let st := if status = .Reject then sendNACK st ev else st
    some (true, st)
  | .M =>
    let (status, st) := if inMSHR then (.OK, st) else allocateMSHR st ev true (-1)
    let st :=
      if status = .OK then
        let st := issueFetch st ev entry .FetchInv
        setDirEntry st a { entry with state := .M_Inv }
      else st
    let st := if status = .Reject then sendNACK st ev else st
    some (true, st)
  | .IS =>
    let st := if !mshrPendingWriteback st.mshr a then sendAckInv st ev else st
    some (true, cleanUpAfterRequest st ev inMSHR)
  | .IM =>
    let st := if !mshrPendingWriteback st.mshr a then sendAckInv st ev else st
    some (true, cleanUpAfterRequest st ev inMSHR)
  | .I_B =>
    let st := sendAckInv st ev
    let st := setDirEntry st a { entry with state := .I }
    some (true, cleanUpAfterRequest st ev inMSHR)
  | .S_B =>
    let (status, st) := if inMSHR then (.OK, st) else allocateMSHR st ev true 0
    let st :=
      if status = .OK then
        let st := issueInvalidations st ev entry a .Inv
        setDirEntry st a { entry with state := .SB_Inv }
      else st
    let st := if status = .Reject then sendNACK st ev else st
    some (true, st)
  | .S_D =>
    let (status, st) := if inMSHR then (.OK, st) else allocateMSHR st ev true 0
    let st :=
      if status = .OK then
        let st := issueInvalidations st ev entry a .Inv
        setDirEntry st a { entry with state := .SD_Inv }
      else st
    let st := if status = .Reject then sendNACK st ev else st
    some (true, st)
  | .S_Inv =>
    let (status, st) := if inMSHR then (.OK, st) else allocateMSHR st ev true 1
    let st := if status = .Reject then sendNACK st ev else st
    some (true, st)
  | .SM_Inv =>
    let (status, st) := if inMSHR then (.OK, st) else allocateMSHR st ev true 0
    let st := if status = .Reject then sendNACK st ev else st
    some (true, st)
  | .M_Inv =>
    let (status, st) := if inMSHR then (.OK, st) else allocateMSHR st ev true 1
    let st := if status = .Reject then sendNACK st ev else st
    some (true, st)
  | .M_InvX =>
    let (status, st) := if inMSHR then (.OK, st) else allocateMSHR st ev true 1
    let st := if status = .Reject then sendNACK st ev else st
    some (true, st)
  | _ => none

/-- `handleForceInv(event, inMSHR)` — a shootdown that skips the data. -/
def handleForceInv (st : DirCtrl) (ev : MemEv) (inMSHR : Bool) :
    Option (Bool × DirCtrl) :=
  let a := ev.baseAddr
  let (entry, st) := getDirEntry st a
  if !entry.cached then retrieveDirEntry st entry ev inMSHR
  else
  match entry.state with
  | .I =>
    let st := sendAckInv st ev
    some (true, cleanUpAfterRequest st ev inMSHR)
  | .S =>
    let (status, st) := if inMSHR then (.OK, st) else allocateMSHR st ev true 0
    let st :=
      if status = .OK then
        let st := issueInvalidations st ev entry a .ForceInv
        setDirEntry st a { entry with state := .S_Inv }
      else st
    let st := if status = .Reject then sendNACK st ev else st
    some (true, st)
  | .M =>
    let (status, st) := if inMSHR then (.OK, st) else allocateMSHR st ev true 0
    let st :=
      if status = .OK then
        let st := issueInvalidation st entry.owner (some ev) entry a .ForceInv
        setDirEntry st a { entry with state := .M_Inv }
      else st
    let st := if status = .Reject then sendNACK st ev else st
    some (true, st)
  | .IS =>
    let st := if !mshrPendingWriteback st.mshr a then sendAckInv st ev else st
    some (true, cleanUpAfterRequest st ev inMSHR)
  | .IM =>
    let st := if !mshrPendingWriteback st.mshr a then sendAckInv st ev else st
    some (true, cleanUpAfterRequest st ev inMSHR)
  | .I_B =>
    let st := if !mshrPendingWriteback st.mshr a then sendAckInv st ev else st
    some (true, cleanUpAfterRequest st ev inMSHR)
  | .S_B =>
    let (status, st) := if inMSHR then (.OK, st) else allocateMSHR st ev true 0
    let st :=
      if status = .OK then
        let st := issueInvalidations st ev entry a .ForceInv
        setDirEntry st a { entry with state := .SB_Inv }
      else st
    let st := if status = .Reject then sendNACK st ev else st
    some (true, st)
  | .S_D =>
    let (status, st) := if inMSHR then (.OK, st) else allocateMSHR st ev true 0
    let st :=
      if status = .OK then
        let st := issueInvalidations st ev entry a .ForceInv
        setDirEntry st a { entry with state := .SD_Inv }
      else st
    let st := if status = .Reject then sendNACK st ev else st
    some (true, st)
  | .S_Inv =>
    let (status, st) := if inMSHR then (.OK, st) else allocateMSHR st ev true 1
    let st := if status = .Reject then sendNACK st ev else st
    some (true, st)
  | .SM_Inv =>
    let (status, st) := if inMSHR then (.OK, st) else allocateMSHR st ev true 0
    let st := if status = .Reject then sendNACK st ev else st
    some (true, st)
  | .M_Inv =>
    let (status, st) := if inMSHR then (.OK, st) else allocateMSHR st ev true 1
    let st := if status = .Reject then sendNACK st ev else st
    some (true, st)
  | .M_InvX =>
    let (status, st) := if inMSHR then (.OK, st) else allocateMSHR st ev true 1
    let st := if status = .Reject then sendNACK st ev else st
    some (true, st)
  | _ => none

/-- `handleGetSResp(event, inMSHR)`. -/
def handleGetSResp (st : DirCtrl) (ev : MemEv) (_inMSHR : Bool) :
    Option (Bool × DirCtrl) :=
  let a := ev.baseAddr
  let (entry, st) := getDirEntry st a
  match mshrGetFrontEvent st.mshr a with
  | none => none
  | some reqEv =>
    if entry.state ≠ .IS && entry.state ≠ .S_D then none
    else
      let entry' :=
        if !(st.incoherentSrc.contains reqEv.src) then
          { entry.addSharer reqEv.src with state := .S }
        else if entry.state = .IS then { entry with state := .I }
        else { entry with state := .S }
      let st := setDirEntry st a entry'
      let st := sendDataResponse st reqEv ev.payload .GetSResp
      let st := { st with mshr := mshrSetData st.mshr a ev.payload false }
      some (true, cleanUpAfterResponse st ev)

/-- `handleGetXResp(event, inMSHR)`.  The `IS` arm falls through to the
`S_D` arm for MSI with a coherent requester, exactly as the `switch` in the
source does. -/
def handleGetXResp (st : DirCtrl) (ev : MemEv) (_inMSHR : Bool) :
    Option (Bool × DirCtrl) :=
  let a := ev.baseAddr
  let (entry, st) := getDirEntry st a
  match mshrGetFrontEvent st.mshr a with
  | none => none
  | some reqEv =>
    let sdBody (st : DirCtrl) (entry : DirEntry) : Option (Bool × DirCtrl) :=
      let entry' :=
        if !(st.incoherentSrc.contains reqEv.src) then
          { entry.addSharer reqEv.src with state := .S }
        else { entry with state := .S }
      let st := setDirEntry st a entry'
      let st := sendDataResponse st reqEv ev.payload .GetSResp
      let st := { st with mshr := mshrSetData st.mshr a ev.payload false }
      some (true, cleanUpAfterResponse st ev)
    match entry.state with
    | .IS =>
      if st.incoherentSrc.contains reqEv.src then
        let st := setDirEntry st a { entry with state := .I }
        let st := sendDataResponse st reqEv ev.payload .GetSResp
        some (true, cleanUpAfterResponse st ev)
      else if st.protocol = .MESI then
        let st := setDirEntry st a { entry with state := .M, owner := reqEv.src }
        let st := sendDataResponse st reqEv ev.payload .GetXResp
        some (true, cleanUpAfterResponse st ev)
      else
        sdBody st entry
    | .S_D => sdBody st entry
    | .IM =>
      let st :=
        if !(st.incoherentSrc.contains reqEv.src) then
          setDirEntry st a { entry with state := .M, owner := reqEv.src }
        else
          setDirEntry st a { entry with state := .I }
      let st := sendDataResponse st reqEv ev.payload .GetXResp
      some (true, cleanUpAfterResponse st ev)
    | .SM_Inv =>
      let st := setDirEntry st a { entry with state := .S_Inv }
      let st := { st with mshr := mshrSetData st.mshr a ev.payload false }
      some (true, st)
    | _ => none

/-- `handleWriteResp(event, inMSHR)`. -/
def handleWriteResp (st : DirCtrl) (ev : MemEv) (_inMSHR : Bool) :
    Option (Bool × DirCtrl) :=
  let a := ev.baseAddr
  let (entry, st) := getDirEntry st a
  match mshrGetFrontEvent st.mshr a with
  | none => none
  | some reqEv =>
    if entry.state ≠ .IM then none
    else
      let st := setDirEntry st a { entry with state := .I }
      let (resp, st) := makeResponse st reqEv (respCmd reqEv.cmd)
      let st := forwardByDestination st resp (st.timestamp + st.mshrLatency)
      some (true, cleanUpAfterResponse st ev)

/-- `handleFlushLineResp(event, inMSHR)`. -/
def handleFlushLineResp (st : DirCtrl) (ev : MemEv) (_inMSHR : Bool) :
    Option (Bool × DirCtrl) :=
  let a := ev.baseAddr
  let (entry, st) := getDirEntry st a
  match mshrGetFrontEvent st.mshr a with
  | none => none
  | some reqEv =>
    let st := { st with mshr := mshrClearData st.mshr a }
    let st? : Option DirCtrl :=
      match entry.state with
      | .I => some st
      | .I_B => some (setDirEntry st a { entry with state := .I })
      | .S_B => some (setDirEntry st a { entry with state := .S })
      | _ => none
    match st? with
    | none => none
    | some st =>
      let st := sendResponse st reqEv ev.flags ev.memFlags
      some (true, cleanUpAfterResponse st ev)

/-- `handleAckPut(event, inMSHR)`: only reads the entry, then cleans up. -/
def handleAckPut (st : DirCtrl) (ev : MemEv) (_inMSHR : Bool) :
    Option (Bool × DirCtrl) :=
  let (_, st) := getDirEntry st ev.baseAddr
  some (true, cleanUpAfterResponse st ev)

/-- `handleAckInv(event, inMSHR)`. -/
def handleAckInv (st : DirCtrl) (ev : MemEv) (_inMSHR : Bool) :
    Option (Bool × DirCtrl) :=
  let a := ev.baseAddr
  let (entry, st) := getDirEntry st a
  let entry :=
    if entry.isSharer ev.src then entry.removeSharer ev.src else entry.removeOwner
  let st := setDirEntry st a entry
  let (done, m') := mshrDecrementAcksNeeded st.mshr a
  let st := { st with mshr := m' }
  let st := responsesErase st a ev.src
  if !done then some (true, st)
  else
    match entry.state with
    | .M_Inv =>
      let st := setDirEntry st a { entry with state := .I }
      match mshrGetFrontEvent st.mshr a with
      | none => none
      | some f => some (true, { st with retryBuffer := st.retryBuffer ++ [f] })
    | .S_Inv =>
      let st :=
        if entry.hasSharers then setDirEntry st a { entry with state := .S }
        else setDirEntry st a { entry with state := .I }
      match mshrGetFrontEvent st.mshr a with
      | none => none
      | some f => some (true, { st with retryBuffer := st.retryBuffer ++ [f] })
    | .SB_Inv =>
      let st :=
        if entry.hasSharers then setDirEntry st a { entry with state := .S_B }
        else setDirEntry st a { entry with state := .I }
      match mshrGetFrontEvent st.mshr a with
      | none => none
      | some f => some (true, { st with retryBuffer := st.retryBuffer ++ [f] })
    | .SD_Inv =>
      let st :=
        if entry.hasSharers then setDirEntry st a { entry with state := .S_D }
        else setDirEntry st a { entry with state := .IS }
      match mshrGetFrontEvent st.mshr a with
      | none => none
      | some f => some (true, { st with retryBuffer := st.retryBuffer ++ [f] })
    | .SM_Inv =>
      let st := setDirEntry st a { entry with state := .IM }
      some (true, st)
    | _ => none

/-- `handleFetchXResp(event, inMSHR)`. -/
def handleFetchXResp (st : DirCtrl) (ev : MemEv) (_inMSHR : Bool) :
    Option (Bool × DirCtrl) :=
  let a := ev.baseAddr
  let (entry, st) := getDirEntry st a
  if entry.state ≠ .M_InvX then none
  else
    let (_, m') := mshrDecrementAcksNeeded st.mshr a
    let st := { st with mshr := m' }
    let st := responsesErase st a ev.src
    let st := { st with mshr := mshrSetData st.mshr a ev.payload ev.dirty }
    let entry := (entry.removeOwner).addSharer ev.src
    let st := setDirEntry st a { entry with state := .S }
    match mshrGetFrontEvent st.mshr a with
    | none => none
    | some f => some (true, { st with retryBuffer := st.retryBuffer ++ [f] })

/-- `handleFetchResp(event, inMSHR)`. -/
def handleFetchResp (st : DirCtrl) (ev : MemEv) (_inMSHR : Bool) :
    Option (Bool × DirCtrl) :=
  let a := ev.baseAddr
  let (entry, st) := getDirEntry st a
  if entry.state ≠ .S_Inv && entry.state ≠ .M_Inv then none
  else
    let (_, m') := mshrDecrementAcksNeeded st.mshr a
    let st := { st with mshr := m' }
    let st := responsesErase st a ev.src
    let st := { st with mshr := mshrSetData st.mshr a ev.payload ev.dirty }
    let st := setDirEntry st a { entry with state := .I }
    match mshrGetFrontEvent st.mshr a with
    | none => none
    | some f =>
      let st := { st with retryBuffer := st.retryBuffer ++ [f] }
      let st := if ev.dirty then writebackDataFromMSHR st a else st
      some (true, st)

/-- `handleNACK(event, inMSHR)`.  The nacked event, stored by pointer in
the source, is passed explicitly here. -/
def handleNACK (st : DirCtrl) (ev : MemEv) (nackedEvent : MemEv) :
    Option (Bool × DirCtrl) :=
  let a := ev.baseAddr
  let (_, st) := getDirEntry st a
  match nackedEvent.cmd with
  | .GetS | .GetX | .GetSX | .PutM | .FlushLine | .FlushLineInv =>
    some (true, forwardByDestination st nackedEvent (st.timestamp + st.mshrLatency))
  | .FetchInv | .FetchInvX | .Inv | .ForceInv =>
    if respLookup st a nackedEvent.dst = some nackedEvent.id then
      some (true, forwardByDestination st nackedEvent (st.timestamp + st.mshrLatency))
    else
      some (true, st)
  | _ => none

/-- `handleDirEntryResponse(event)`: a response to a directory-entry read
(non-global address); restores the stable state, marks the entry cached and
retries the front MSHR event. -/
def handleDirEntryResponse (st : DirCtrl) (ev : MemEv) : Option DirCtrl :=
  match plookup ev.responseToId st.dirMemAccesses with
  | none => none
  | some a =>
    let st := { st with dirMemAccesses := perase ev.responseToId st.dirMemAccesses }
    let (entry, st) := getDirEntry st a
    let newState? : Option CohState :=
      match entry.state with
      | .I_d => some .I
      | .S_d => some .S
      | .M_d => some .M
      | _ => none
    match newState? with
    | none => none
    | some s =>
      let st := setDirEntry st a { entry with state := s, cached := true }
      match mshrGetFrontEvent st.mshr a with
      | none => none
      | some f => some { st with retryBuffer := st.retryBuffer ++ [f] }

/-- Replace-or-append on an event-id-keyed map (`map[k] = v`). -/
def pupdate {ν : Type} (k : EventId) (v : ν) :
    List (EventId × ν) → List (EventId × ν)
  | [] => [(k, v)]
  | (k', v') :: t => if k = k' then (k, v) :: t else (k', v') :: pupdate k v t

/-- `handleNoncacheableRequest(ev)`: record the requester (unless the
request wants no response), stamp our name and forward by address. -/
def handleNoncacheableRequest (st : DirCtrl) (ev : MemEv) : DirCtrl :=
  let st :=
    if !ev.noResponse then
      { st with noncacheMemReqs := pupdate ev.id ev.src st.noncacheMemReqs }
    else st
  let ev := { ev with src := st.selfName }
  forwardByAddress st ev (st.timestamp + 1)

/-- `handleNoncacheableResponse(ev)`: restore the original requester as
destination and forward; a response with no pending request is fatal. -/
def handleNoncacheableResponse (st : DirCtrl) (ev : MemEv) : Option DirCtrl :=
  match plookup ev.id st.noncacheMemReqs with
  | none => none
  | some orig =>
    let ev := { ev with dst := orig, src := st.selfName }
    let st := { st with noncacheMemReqs := perase ev.id st.noncacheMemReqs }
    some (forwardByDestination st ev (st.timestamp + 1))

/-- `arbitrateAccess(addr)`: allowed iff the line was not already touched
this cycle. -/
def arbitrateAccess (st : DirCtrl) (a : Addr) : Bool :=
  !(st.addrsThisCycle.contains a)

/-- The command dispatch inside `processPacket`. -/
def dispatchEvent (st : DirCtrl) (ev : MemEv) (nackedOf : Option MemEv)
    (replay : Bool) : Option (Bool × DirCtrl) :=
  match ev.cmd with
  | .GetS => handleGetS st ev replay
  | .GetSX => handleGetSX st ev replay
  | .GetX => handleGetX st ev replay
  | .Write => handleWrite st ev replay
  | .PutS => handlePutS st ev replay
  | .PutE => handlePutE st ev replay
  | .PutX => handlePutX st ev replay
  | .PutM => handlePutM st ev replay
  | .FlushLineInv => handleFlushLineInv st ev replay
  | .FlushLine => handleFlushLine st ev replay
  | .FetchInv => handleFetchInv st ev replay
  | .ForceInv => handleForceInv st ev replay
  | .GetXResp => handleGetXResp st ev replay
  | .GetSResp => handleGetSResp st ev replay
  | .WriteResp => handleWriteResp st ev replay
  | .FlushLineResp => handleFlushLineResp st ev replay
  | .AckInv => handleAckInv st ev replay
  | .AckPut => handleAckPut st ev replay
  | .FetchResp => handleFetchResp st ev replay
  | .FetchXResp => handleFetchXResp st ev replay
  | .NACK =>
    match nackedOf with
    | some nk => handleNACK st ev nk
    | none => none
  | _ => none

/-- `processPacket(ev, replay)`: region check, per-line arbitration,
directory-entry-response short-circuit, then dispatch; a consumed event
records its address in `addrsThisCycle`. -/
def processPacket (st : DirCtrl) (ev : MemEv) (nackedOf : Option MemEv)
    (replay : Bool) : Option (Bool × DirCtrl) :=
  if !isRequestAddressValid st ev.addr then none
  else if !arbitrateAccess st ev.baseAddr then some (false, st)
  else if !ev.addrGlobal then
    (handleDirEntryResponse st ev).map (fun st' => (true, st'))
  else
    match dispatchEvent st ev nackedOf replay with
    | none => none
    | some (retval, st') =>
      let st' :=
        if retval then
          { st' with addrsThisCycle := ev.baseAddr :: st'.addrsThisCycle }
        else st'
      some (retval, st')

/-- Deterministic next state of `handleAckInv` once the last ack arrives,
as a function of the transient state and whether sharers remain. -/
def ackInvNext (s : CohState) (hasSharers : Bool) : CohState :=
  match s with
  | .M_Inv => .I
  | .S_Inv => if hasSharers then .S else .I
  | .SB_Inv => if hasSharers then .S_B else .I
  | .SD_Inv => if hasSharers then .S_D else .IS
  | .SM_Inv => .IM
  | s => s

/-! Concrete fixtures used by the closed evaluations below. -/

/-- An entry in `S` shared by A and B (no owner). -/
def entSAB : DirEntry := { state := .S, sharers := ["A", "B"] }

/-- A `GetX` request from A for line 64. -/
def evGetXA : MemEv := { cmd := .GetX, addr := 64, baseAddr := 64, src := "A", id := (7, 0) }

/-- A one-line directory state holding `entSAB` at line 64. -/
def stSAB : DirCtrl := { directory := [(64, entSAB)] }

/-- A queued `GetX` from A, parked at the front of the MSHR for line 64. -/
def evFrontA : MemEv := { cmd := .GetX, addr := 64, baseAddr := 64, src := "A", id := (3, 0) }

/-- State for the last-ack scenario: line 64 in `SM_Inv` with B still a
sharer, one outstanding ack, A's `GetX` at the MSHR front. -/
def stSMInv : DirCtrl :=
  { directory := [(64, { state := .SM_Inv, sharers := ["B"] })],
    mshr := [(64, { entries := [.ev evFrontA true], acksNeeded := 1 })],
    responses := [(64, [("B", (8, 0))])] }

/-- The `AckInv` from B for line 64. -/
def evAckInvB : MemEv := { cmd := .AckInv, addr := 64, baseAddr := 64, src := "B", id := (11, 0) }

/-- State for the shootdown scenario: line 64 in `S` with sharer A only. -/
def stSA : DirCtrl := { directory := [(64, { state := .S, sharers := ["A"] })] }

/-- A `ForceInv` shootdown arriving from the memory side. -/
def evForceM : MemEv := { cmd := .ForceInv, addr := 64, baseAddr := 64, src := "mem0", id := (2, 0) }

/-- State for the owner-shootdown scenario: line 64 in `M`, owned by A. -/
def stMA : DirCtrl := { directory := [(64, { state := .M, owner := "A" })] }

/-- State for the eviction scenario: two cached entries, LRU list holding
line 128 which has MSHR activity, capacity 1. -/
def stEvict : DirCtrl :=
  { entryCacheMaxSize := 1,
    directory := [(64, { state := .S, sharers := ["A"] }),
                  (128, { state := .S, sharers := ["B"] })],
    entryCache := [128],
    mshr := [(128, { entries := [.ev evFrontA false] })] }

/-- State for the directory-entry-response scenario: line 64 is being
fetched (`I_d`), its read has id (500, 0) and A's `GetX` is queued. -/
def stDirResp : DirCtrl :=
  { directory := [(64, { state := .I_d, cached := false })],
    dirMemAccesses := [((500, 0), 64)],
    mshr := [(64, { entries := [.ev evFrontA false] })] }

/-- The (non-global) response to that directory-entry read. -/
def evDirResp : MemEv :=
  { cmd := .GetSResp, addr := 0, baseAddr := 0, src := "mem", id := (9, 0),
    responseToId := (500, 0), addrGlobal := false }

/-- A non-cacheable posted request (`F_NORESPONSE`). -/
def evNCPosted : MemEv :=
  { cmd := .Write, addr := 8000, baseAddr := 8000, src := "A", id := (21, 0),
    noResponse := true }

/-- An MSHR with two queued events for line 64: the front one in progress,
an idle `GetX` behind it. -/
def stTwoQueued : DirCtrl :=
  { mshr := [(64, { entries := [.ev evFrontA true, .ev evGetXA false] })] }

/-- A `GetS` from client A for line 0. -/
def evGetSA : MemEv :=
  { cmd := .GetS, addr := 0, baseAddr := 0, src := "A", id := (5, 0), size := 64 }

/-- An empty directory holding only a fresh `I` entry for line 0. -/
def stIdle : DirCtrl := { directory := [(0, {})] }

/-- Line 0 in `IS` with A's `GetS` in progress at the MSHR front. -/
def stIS : DirCtrl :=
  { directory := [(0, { state := .IS })],
    mshr := [(0, { entries := [.ev evGetSA true] })] }

/-- The memory's `GetXResp` (MESI upgrade) carrying payload `[1, 2, 3]`. -/
def evMemResp : MemEv :=
  { cmd := .GetXResp, addr := 0, baseAddr := 0, src := "mem", dst := "dir",
    id := (9, 0), responseToId := (1000, 0), payload := [1, 2, 3] }

/-! Helper lemmas about the association-list and MSHR primitives. -/

theorem alookup_aupdate_self {ν : Type} (k : Nat) (v : ν) (l : List (Nat × ν)) :
    alookup k (aupdate k v l) = some v := by
  induction l with
  | nil => simp [aupdate, alookup]
  | cons h t ih =>
    obtain ⟨k', v'⟩ := h
    by_cases hk : k = k' <;> simp [aupdate, alookup, hk, ih]

theorem alookup_aupdate_ne {ν : Type} (k k' : Nat) (v : ν) (l : List (Nat × ν))
    (h : k ≠ k') : alookup k (aupdate k' v l) = alookup k l := by
  induction l with
  | nil => simp [aupdate, alookup, h]
  | cons hd t ih =>
    obtain ⟨k'', v''⟩ := hd
    by_cases hk : k' = k'' <;> by_cases hk2 : k = k'' <;>
      simp_all [aupdate, alookup]

theorem retryNextIfReady_mshr (st : DirCtrl) (a : Addr) :
    (retryNextIfReady st a).mshr = st.mshr := by
  unfold retryNextIfReady
  repeat' split
  all_goals rfl

theorem retryNextIfReady_directory (st : DirCtrl) (a : Addr) :
    (retryNextIfReady st a).directory = st.directory := by
  unfold retryNextIfReady
  repeat' split
  all_goals rfl

theorem retryNextIfReady_sent (st : DirCtrl) (a : Addr) :
    (retryNextIfReady st a).sent = st.sent := by
  unfold retryNextIfReady
  repeat' split
  all_goals rfl

theorem retryNextIfReady_responses (st : DirCtrl) (a : Addr) :
    (retryNextIfReady st a).responses = st.responses := by
  unfold retryNextIfReady
  repeat' split
  all_goals rfl

theorem retryNextIfReady_retryBuffer (st : DirCtrl) (a : Addr) :
    (retryNextIfReady st a).retryBuffer = st.retryBuffer ∨
    ∃ f, mshrGetFrontEvent st.mshr a = some f ∧
      (retryNextIfReady st a).retryBuffer = st.retryBuffer ++ [f] := by
  unfold retryNextIfReady
  repeat' split
  all_goals first
    | (rename_i f hf; exact Or.inr ⟨f, hf, rfl⟩)
    | exact Or.inl rfl

theorem cleanUpAfterResponse_eq_retry (st : DirCtrl) (ev : MemEv) :
    cleanUpAfterResponse st ev =
      retryNextIfReady { st with mshr := mshrRemoveFront st.mshr ev.baseAddr }
        ev.baseAddr := rfl

theorem alookup_aerase_self {ν : Type} (k : Nat) (l : List (Nat × ν)) :
    alookup k (aerase k l) = none := by
  induction l with
  | nil => simp [aerase, alookup]
  | cons hd t ih =>
    obtain ⟨k', v'⟩ := hd
    by_cases hk : k = k'
    · subst hk
      simp [aerase, ih]
    · simp [aerase, alookup, hk, ih]

theorem mshrReg_setReg_self (m : Mshr) (a : Addr) (r : MSHRReg) :
    mshrReg (mshrSetReg m a r) a = if r.isEmptyReg then {} else r := by
  unfold mshrSetReg mshrReg
  split
  · simp [alookup_aerase_self]
  · simp [alookup_aupdate_self]

/-- The front event after writing back a register is the register's own
front. -/
theorem mshrGetFrontEvent_setReg (m : Mshr) (a : Addr) (r : MSHRReg) :
    mshrGetFrontEvent (mshrSetReg m a r) a =
      (match r.entries.head? with
       | some (.ev e _) => some e
       | _ => none) := by
  by_cases hemp : r.isEmptyReg
  · have hent : r.entries = [] := by
      simp [MSHRReg.isEmptyReg] at hemp
      exact hemp.1.1
    unfold mshrGetFrontEvent
    rw [mshrReg_setReg_self, if_pos hemp, hent]
  · unfold mshrGetFrontEvent
    rw [mshrReg_setReg_self, if_neg hemp]

/-- The ack count after writing back a register is the register's own. -/
theorem mshrGetAcksNeeded_setReg (m : Mshr) (a : Addr) (r : MSHRReg) :
    mshrGetAcksNeeded (mshrSetReg m a r) a = r.acksNeeded := by
  by_cases hemp : r.isEmptyReg
  · have hz : r.acksNeeded = 0 := by
      simp [MSHRReg.isEmptyReg] at hemp
      exact hemp.1.2
    unfold mshrGetAcksNeeded
    rw [mshrReg_setReg_self, if_pos hemp, hz]
  · unfold mshrGetAcksNeeded
    rw [mshrReg_setReg_self, if_neg hemp]

/-- Decrementing the ack counter never changes the front of the queue. -/
theorem mshrGetFrontEvent_dec (m : Mshr) (a : Addr) :
    mshrGetFrontEvent (mshrDecrementAcksNeeded m a).2 a =
      mshrGetFrontEvent m a := by
  unfold mshrDecrementAcksNeeded
  cases hacks : (mshrReg m a).acksNeeded with
  | zero => simp [hacks]
  | succ k =>
    simp only [hacks]
    rw [mshrGetFrontEvent_setReg]
    rfl

/-- Decrementing the ack counter decrements `getAcksNeeded` (saturating). -/
theorem mshrGetAcksNeeded_dec (m : Mshr) (a : Addr) :
    mshrGetAcksNeeded (mshrDecrementAcksNeeded m a).2 a =
      mshrGetAcksNeeded m a - 1 := by
  unfold mshrDecrementAcksNeeded
  cases hacks : (mshrReg m a).acksNeeded with
  | zero => simp [mshrGetAcksNeeded, hacks]
  | succ k =>
    simp only [hacks]
    rw [mshrGetAcksNeeded_setReg]
    simp [mshrGetAcksNeeded, hacks]

theorem responsesErase_mshr (st : DirCtrl) (a : Addr) (n : Node) :
    (responsesErase st a n).mshr = st.mshr := by
  simp only [responsesErase]
  repeat' split
  all_goals rfl

theorem responsesErase_directory (st : DirCtrl) (a : Addr) (n : Node) :
    (responsesErase st a n).directory = st.directory := by
  simp only [responsesErase]
  repeat' split
  all_goals rfl

theorem responsesErase_retryBuffer (st : DirCtrl) (a : Addr) (n : Node) :
    (responsesErase st a n).retryBuffer = st.retryBuffer := by
  simp only [responsesErase]
  repeat' split
  all_goals rfl

theorem responsesErase_sent (st : DirCtrl) (a : Addr) (n : Node) :
    (responsesErase st a n).sent = st.sent := by
  simp only [responsesErase]
  repeat' split
  all_goals rfl

/-! ## C1 -/

/-- C1: the claim that `responses[addr][dst] = event.id` holds for every
in-flight invalidation after `issueFetch`/`issueInvalidation` fails on this
code.  `issueInvalidation` records the expected response under
`entry->getOwner()` instead of the destination, so after it sends an `Inv`
with destination B (for an entry in `S`, whose owner field is empty) the
lookup `responses[64][B]` — precisely the one `handleNACK` performs — is
empty, while `responses[64][""]` holds the new event's id. -/
theorem C1_issueInvalidation_breaks_responses_invariant :
    (issueInvalidation stSAB "B" (some evGetXA) entSAB 64 .Inv).sent.map
        (fun m => (m.ev.cmd, m.ev.dst, m.ev.id)) = [(.Inv, "B", (1000, 0))] ∧
    respLookup (issueInvalidation stSAB "B" (some evGetXA) entSAB 64 .Inv) 64 "B" = none ∧
    respLookup (issueInvalidation stSAB "B" (some evGetXA) entSAB 64 .Inv) 64 "" =
      some (1000, 0) := by
  refine ⟨?_, ?_, ?_⟩ <;> rfl

/-! ## C2 -/

/-- C2: on a NACK of a read/write/put/flush
(`GetS/GetX/GetSX/PutM/FlushLine/FlushLineInv`) the nacked event is always
re-sent; on a NACK of an invalidation or fetch
(`FetchInv/FetchInvX/Inv/ForceInv`) it is re-sent exactly when
`responses[addr][dst]` still equals the nacked event's id, and otherwise it
is dropped with no state change.  (The directory entry for the address is
assumed to exist, as it does whenever the directory has a message in
flight; `getDirEntry` would otherwise allocate a fresh one.) -/
theorem C2_handleNACK_policy (st : DirCtrl) (ev nacked : MemEv) (e : DirEntry)
    (hE : alookup ev.baseAddr st.directory = some e) :
    (nacked.cmd ∈ [Cmd.GetS, .GetX, .GetSX, .PutM, .FlushLine, .FlushLineInv] →
      handleNACK st ev nacked =
        some (true, forwardByDestination st nacked (st.timestamp + st.mshrLatency))) ∧
    (nacked.cmd ∈ [Cmd.FetchInv, .FetchInvX, .Inv, .ForceInv] →
      (respLookup st ev.baseAddr nacked.dst = some nacked.id →
        handleNACK st ev nacked =
          some (true, forwardByDestination st nacked (st.timestamp + st.mshrLatency))) ∧
      (respLookup st ev.baseAddr nacked.dst ≠ some nacked.id →
        handleNACK st ev nacked = some (true, st))) := by
  constructor
  · intro hmem
    simp only [List.mem_cons, List.not_mem_nil, or_false] at hmem
    rcases hmem with h | h | h | h | h | h <;>
      simp [handleNACK, getDirEntry, hE, h]
  · intro hmem
    simp only [List.mem_cons, List.not_mem_nil, or_false] at hmem
    constructor
    · intro hresp
      rcases hmem with h | h | h | h <;>
        simp [handleNACK, getDirEntry, hE, h, hresp]
    · intro hresp
      rcases hmem with h | h | h | h <;>
        simp [handleNACK, getDirEntry, hE, h, hresp]

/-- Witness for C2 at a concrete input: a NACKed `GetS` is re-sent. -/
theorem C2_handleNACK_policy_witness :
    handleNACK stSAB evGetXA { evFrontA with cmd := .GetS } =
      some (true, forwardByDestination stSAB { evFrontA with cmd := .GetS }
        (stSAB.timestamp + stSAB.mshrLatency)) :=
  (C2_handleNACK_policy stSAB evGetXA { evFrontA with cmd := .GetS } entSAB
    (by rfl)).1 (by decide)

/-! ## C3 -/

/-- C3 (counterexample to the claim as stated): `processPacket` can return
`true` without inserting the event's base address into `addrsThisCycle`.
A response to a directory-entry read (non-global address) takes the
short-circuit to `handleDirEntryResponse` and returns `true` before the
insertion point; here the consumed event's base address 0 is not recorded. -/
theorem C3_processPacket_nonglobal_consumes_without_insert :
    (processPacket stDirResp evDirResp none false).map
      (fun p => (p.1, decide (evDirResp.baseAddr ∈ p.2.addrsThisCycle))) =
      some (true, false) := by
  rfl

/-- C3 (amended): `processPacket` returns `false` (and leaves the state
unchanged) whenever the base address was already touched this cycle, and
every invocation that consumes a *global-address* event records the base
address in `addrsThisCycle`.  Directory-entry responses (non-global
addresses) are consumed without touching the set. -/
theorem C3_processPacket_one_access_per_line (st : DirCtrl) (ev : MemEv)
    (nackedOf : Option MemEv) (replay : Bool) :
    (isRequestAddressValid st ev.addr = true →
      arbitrateAccess st ev.baseAddr = false →
      processPacket st ev nackedOf replay = some (false, st)) ∧
    (∀ st', ev.addrGlobal = true →
      processPacket st ev nackedOf replay = some (true, st') →
      ev.baseAddr ∈ st'.addrsThisCycle) := by
  constructor
  · intro hv ha
    simp [processPacket, hv, ha]
  · intro st' hg hp
    unfold processPacket at hp
    split at hp
    · exact absurd hp (by simp)
    · split at hp
      · simp at hp
      · split at hp
        · simp_all
        · cases hd : dispatchEvent st ev nackedOf replay with
          | none => rw [hd] at hp; simp at hp
          | some p =>
            obtain ⟨r, s1⟩ := p
            rw [hd] at hp
            cases r with
            | false => simp at hp
            | true =>
              simp at hp
              rw [← hp]
              exact List.mem_cons_self _ _

/-- Witness for C3 at a concrete input: line 64 already touched this
cycle, so the `GetX` is stalled. -/
theorem C3_processPacket_one_access_per_line_witness :
    processPacket { stSAB with addrsThisCycle := [64] } evGetXA none false =
      some (false, { stSAB with addrsThisCycle := [64] }) :=
  (C3_processPacket_one_access_per_line { stSAB with addrsThisCycle := [64] }
    evGetXA none false).1 (by decide) (by decide)

theorem mshrReg_of_none (m : Mshr) (a : Addr) (hm : alookup a m = none) :
    mshrReg m a = {} := by
  unfold mshrReg
  rw [hm]
  rfl

theorem mshrExists_of_none (m : Mshr) (a : Addr) (hm : alookup a m = none) :
    mshrExists m a = false := by
  unfold mshrExists
  rw [hm]
  rfl

theorem mshrHasData_of_none (m : Mshr) (a : Addr) (hm : alookup a m = none) :
    mshrHasData m a = false := by
  unfold mshrHasData
  rw [mshrReg_of_none m a hm]
  rfl

theorem mshrPendingWriteback_of_none (m : Mshr) (a : Addr)
    (hm : alookup a m = none) : mshrPendingWriteback m a = false := by
  unfold mshrPendingWriteback mshrGetFrontType
  rw [mshrReg_of_none m a hm]
  rfl

/-- Forward-path inserts bypass the capacity bound. -/
theorem mshrInsertEvent_fwd (maxSize : Option Nat) (m : Mshr) (a : Addr)
    (e : MemEv) (pos : Int) :
    mshrInsertEvent maxSize m a e pos true =
      mshrInsertEvent.mshrInsertAt m a e pos := by
  cases maxSize <;> simp [mshrInsertEvent]

/-- A forward-path insert into an empty register lands at the front and
returns OK. -/
theorem allocateMSHR_fwd_empty (st : DirCtrl) (ev : MemEv) (pos : Int)
    (hm : alookup ev.baseAddr st.mshr = none) (hpos : pos = -1 ∨ pos = 0) :
    allocateMSHR st ev true pos =
      (.OK, { st with
        mshr := aupdate ev.baseAddr { entries := [.ev ev false] } st.mshr }) := by
  rcases hpos with h | h <;> subst h <;>
    simp [allocateMSHR, mshrInsertEvent_fwd, mshrInsertEvent.mshrInsertAt,
      mshrReg_of_none _ _ hm, mshrSetReg, MSHRReg.isEmptyReg]

theorem responsesInsert_sent (st : DirCtrl) (a : Addr) (k : Node) (i : EventId) :
    (responsesInsert st a k i).sent = st.sent := by
  unfold responsesInsert
  split
  all_goals rfl

theorem responsesInsert_directory (st : DirCtrl) (a : Addr) (k : Node)
    (i : EventId) : (responsesInsert st a k i).directory = st.directory := by
  unfold responsesInsert
  split
  all_goals rfl

theorem responsesInsert_timestamp (st : DirCtrl) (a : Addr) (k : Node)
    (i : EventId) : (responsesInsert st a k i).timestamp = st.timestamp := by
  unfold responsesInsert
  split
  all_goals rfl

theorem responsesInsert_accessLatency (st : DirCtrl) (a : Addr) (k : Node)
    (i : EventId) : (responsesInsert st a k i).accessLatency = st.accessLatency := by
  unfold responsesInsert
  split
  all_goals rfl

/-- Effect of one `issueInvalidation`: one message with the requested
command and destination, scheduled one access latency out; directory,
clock and latency configuration untouched. -/
theorem issueInvalidation_spec (st : DirCtrl) (dst : Node)
    (evOpt : Option MemEv) (entry : DirEntry) (a : Addr) (c : Cmd) :
    (issueInvalidation st dst evOpt entry a c).timestamp = st.timestamp ∧
    (issueInvalidation st dst evOpt entry a c).accessLatency = st.accessLatency ∧
    (issueInvalidation st dst evOpt entry a c).directory = st.directory ∧
    ∃ iv : MemEv, iv.cmd = c ∧ iv.dst = dst ∧
      (issueInvalidation st dst evOpt entry a c).sent =
        st.sent ++ [{ time := st.timestamp + st.accessLatency, ev := iv,
                      viaAddr := false }] := by
  cases evOpt with
  | none =>
    refine ⟨?_, ?_, ?_,
      ⟨{ cmd := c, addr := a, baseAddr := a, src := st.selfName, dst := dst,
         rqstr := st.selfName, id := (st.nextId, 0), size := st.lineSize },
       rfl, rfl, ?_⟩⟩ <;>
      simp [issueInvalidation, newMemEv, freshId, forwardByDestination,
        responsesInsert_sent, responsesInsert_directory, responsesInsert_timestamp,
        responsesInsert_accessLatency]
  | some ev0 =>
    refine ⟨?_, ?_, ?_,
      ⟨{ cmd := c, addr := a, baseAddr := a, src := st.selfName, dst := dst,
         rqstr := ev0.rqstr, id := (st.nextId, 0), size := st.lineSize },
       rfl, rfl, ?_⟩⟩ <;>
      simp [issueInvalidation, newMemEv, freshId, forwardByDestination,
        responsesInsert_sent, responsesInsert_directory, responsesInsert_timestamp,
        responsesInsert_accessLatency]

/-- Effect of the invalidation broadcast loop over a sharer list. -/
theorem issueInvalidationsGo_spec (rq : Node) (ev : MemEv) (entry : DirEntry)
    (a : Addr) (c : Cmd) (l : List Node) (st : DirCtrl) :
    (issueInvalidationsGo st rq ev entry a c l).timestamp = st.timestamp ∧
    (issueInvalidationsGo st rq ev entry a c l).accessLatency = st.accessLatency ∧
    (issueInvalidationsGo st rq ev entry a c l).directory = st.directory ∧
    ∃ msgs, (issueInvalidationsGo st rq ev entry a c l).sent = st.sent ++ msgs ∧
      msgs.length = (l.filter (fun x => x ≠ rq)).length ∧
      (∀ m ∈ msgs, m.ev.cmd = c ∧ m.time = st.timestamp + st.accessLatency ∧
        m.viaAddr = false) ∧
      (∀ x ∈ l, x ≠ rq → ∃ m ∈ msgs, m.ev.dst = x) := by
  induction l generalizing st with
  | nil =>
    refine ⟨rfl, rfl, rfl, [], by simp [issueInvalidationsGo], by simp, by simp, by simp⟩
  | cons x rest ih =>
    by_cases hx : x = rq
    · subst hx
      have h := ih st
      simp only [issueInvalidationsGo, if_pos rfl]
      obtain ⟨ht, hl, hd, msgs, hs, hlen, hall, hcov⟩ := h
      refine ⟨ht, hl, hd, msgs, hs, ?_, hall, ?_⟩
      · simp [hlen]
      · intro y hy hne
        rcases List.mem_cons.mp hy with h | h
        · exact absurd h hne
        · exact hcov y h hne
    · obtain ⟨ht1, hl1, hd1, iv, hivc, hivd, hsent1⟩ :=
        issueInvalidation_spec st x (some ev) entry a c
      have h := ih (issueInvalidation st x (some ev) entry a c)
      obtain ⟨ht, hl, hd, msgs, hs, hlen, hall, hcov⟩ := h
      simp only [issueInvalidationsGo, if_neg hx]
      refine ⟨by rw [ht, ht1], by rw [hl, hl1], by rw [hd, hd1],
        { time := st.timestamp + st.accessLatency, ev := iv, viaAddr := false } :: msgs,
        ?_, ?_, ?_, ?_⟩
      · rw [hs, hsent1]
        simp
      · simp [hlen, hx]
      · intro m hm
        rcases List.mem_cons.mp hm with h | h
        · subst h
          exact ⟨hivc, rfl, rfl⟩
        · have := hall m h
          rw [ht1, hl1] at this
          exact this
      · intro y hy hne
        rcases List.mem_cons.mp hy with h | h
        · subst h
          exact ⟨_, List.mem_cons_self _ _, hivd⟩
        · obtain ⟨m, hm, hmd⟩ := hcov y h hne
          exact ⟨m, List.mem_cons_of_mem _ hm, hmd⟩

theorem alookup_aupdate_isSome {ν : Type} (k k' : Nat) (v : ν)
    (l : List (Nat × ν)) (h : (alookup k l).isSome = true) :
    (alookup k (aupdate k' v l)).isSome = true := by
  by_cases hk : k = k'
  · subst hk
    rw [alookup_aupdate_self]
    rfl
  · rw [alookup_aupdate_ne _ _ _ _ hk]
    exact h

/-- `setCachedFalse` only touches the directory. -/
theorem setCachedFalse_eq (st : DirCtrl) (a : Addr) :
    setCachedFalse st a =
      { st with directory :=
          match alookup a st.directory with
          | some e => aupdate a { e with cached := false } st.directory
          | none => st.directory } := by
  unfold setCachedFalse setDirEntry
  split <;> rfl

theorem setCachedFalse_lookup_self (st : DirCtrl) (a : Addr) (e0 : DirEntry)
    (he0 : alookup a st.directory = some e0) :
    alookup a (setCachedFalse st a).directory = some { e0 with cached := false } := by
  rw [setCachedFalse_eq, he0]
  simp [alookup_aupdate_self]

theorem setCachedFalse_preserves_false (st : DirCtrl) (a b : Addr)
    (hb : (alookup b st.directory).map DirEntry.cached = some false) :
    (alookup b (setCachedFalse st a).directory).map DirEntry.cached = some false := by
  rw [setCachedFalse_eq]
  cases he : alookup a st.directory with
  | none => simpa using hb
  | some e =>
    by_cases hba : b = a
    · subst hba
      simp [alookup_aupdate_self]
    · simpa [alookup_aupdate_ne _ _ _ _ hba] using hb

theorem setCachedFalse_isSome (st : DirCtrl) (a b : Addr)
    (h : (alookup b st.directory).isSome = true) :
    (alookup b (setCachedFalse st a).directory).isSome = true := by
  rw [setCachedFalse_eq]
  cases he : alookup a st.directory with
  | none => simpa using h
  | some e =>
    simpa using alookup_aupdate_isSome b a { e with cached := false } _ h

theorem sendEntryToMemory_sent (st : DirCtrl) :
    (sendEntryToMemory st).sent = st.sent ++
      [{ time := st.timestamp + st.accessLatency,
         ev := { cmd := .PutE, addr := 0, baseAddr := 0, src := st.selfName,
                 dst := st.memTarget, id := (st.nextId, 0), size := st.entrySize,
                 noResponse := true },
         viaAddr := false, dirAccess := true }] := rfl

/-- Full specification of the eviction loop (for sufficient fuel, as
`updateCache` supplies): the MSHR is untouched; the loop ends under
capacity or blocked on a busy LRU tail; evicted entries never had MSHR
activity and end up marked uncached; already-uncached marks survive; one
`PutE`/`F_NORESPONSE` message is emitted per evicted entry at
`timestamp + accessLatency`. -/
theorem evictLoop_spec : ∀ (fuel : Nat) (st : DirCtrl),
    st.entryCache.length ≤ fuel →
    (∀ b ∈ st.entryCache, (alookup b st.directory).isSome = true) →
    (evictLoop fuel st).mshr = st.mshr ∧
    ((evictLoop fuel st).entryCache.length ≤ st.entryCacheMaxSize ∨
      ∃ b, (evictLoop fuel st).entryCache.getLast? = some b ∧
        mshrExists st.mshr b = true) ∧
    (∀ b ∈ st.entryCache, b ∉ (evictLoop fuel st).entryCache →
      mshrExists st.mshr b = false) ∧
    (∀ b ∈ st.entryCache, b ∉ (evictLoop fuel st).entryCache →
      (alookup b (evictLoop fuel st).directory).map DirEntry.cached = some false) ∧
    (∀ b, (alookup b st.directory).map DirEntry.cached = some false →
      (alookup b (evictLoop fuel st).directory).map DirEntry.cached = some false) ∧
    ∃ ms, (evictLoop fuel st).sent = st.sent ++ ms ∧
      ms.length + (evictLoop fuel st).entryCache.length = st.entryCache.length ∧
      ∀ m ∈ ms, m.ev.cmd = .PutE ∧ m.ev.noResponse = true ∧
        m.time = st.timestamp + st.accessLatency ∧ m.dirAccess = true := by
  intro fuel
  induction fuel with
  | zero =>
    intro x hfuel _
    have hnil : x.entryCache = [] := List.eq_nil_of_length_eq_zero (Nat.le_zero.mp hfuel)
    have heq : evictLoop 0 x = x := rfl
    rw [heq]
    refine ⟨rfl, Or.inl (by rw [hnil]; simp), ?_, ?_, fun b hb => hb, [],
      by simp, by simp, by simp⟩
    · intro b hb hnb
      exact absurd hb hnb
    · intro b hb hnb
      exact absurd hb hnb
  | succ fuel ihf =>
    intro x hfuel hD
    by_cases h : x.entryCache.length > x.entryCacheMaxSize
    · cases hl : x.entryCache.getLast? with
      | none =>
        have hnil : x.entryCache = [] := by
          cases hc : x.entryCache with
          | nil => rfl
          | cons a t =>
            rw [hc] at hl
            simp [List.getLast?] at hl
        rw [hnil] at h
        simp at h
      | some old =>
        by_cases hbusy : mshrExists x.mshr old = true
        · have heq : evictLoop (fuel + 1) x = x := by
            simp only [evictLoop]
            simp [h, hl, hbusy]
          rw [heq]
          exact ⟨rfl, Or.inr ⟨old, hl, hbusy⟩, fun b hb hnb => absurd hb hnb,
            fun b hb hnb => absurd hb hnb, fun b hb => hb, [], by simp, by simp,
            by simp⟩
        · have hbusy' : mshrExists x.mshr old = false := by
            simpa using hbusy
          have heq : evictLoop (fuel + 1) x = evictLoop fuel (sendEntryToMemory
              (setCachedFalse { x with entryCache := x.entryCache.dropLast } old)) := by
            simp only [evictLoop]
            simp [h, hl, hbusy]
          have hmem' : old ∈ x.entryCache.getLast? := by
            rw [hl]
            rfl
          have hsplit := List.dropLast_append_getLast? old hmem'
          have hmem_old : old ∈ x.entryCache := by
            rw [← hsplit]
            exact List.mem_append_right _ (by simp)
          have hYcache : (sendEntryToMemory
              (setCachedFalse { x with entryCache := x.entryCache.dropLast } old)).entryCache =
              x.entryCache.dropLast := by
            show (setCachedFalse { x with entryCache := x.entryCache.dropLast } old).entryCache = _
            rw [setCachedFalse_eq]
          have hYdir : (sendEntryToMemory
              (setCachedFalse { x with entryCache := x.entryCache.dropLast } old)).directory =
              (setCachedFalse { x with entryCache := x.entryCache.dropLast } old).directory := rfl
          have hYmshr : (sendEntryToMemory
              (setCachedFalse { x with entryCache := x.entryCache.dropLast } old)).mshr =
              x.mshr := by
            show (setCachedFalse { x with entryCache := x.entryCache.dropLast } old).mshr = _
            rw [setCachedFalse_eq]
          have hYmax : (sendEntryToMemory
              (setCachedFalse { x with entryCache := x.entryCache.dropLast } old)).entryCacheMaxSize =
              x.entryCacheMaxSize := by
            show (setCachedFalse { x with entryCache := x.entryCache.dropLast } old).entryCacheMaxSize = _
            rw [setCachedFalse_eq]
          have hYts : (sendEntryToMemory
              (setCachedFalse { x with entryCache := x.entryCache.dropLast } old)).timestamp =
              x.timestamp := by
            show (setCachedFalse { x with entryCache := x.entryCache.dropLast } old).timestamp = _
            rw [setCachedFalse_eq]
          have hYlat : (sendEntryToMemory
              (setCachedFalse { x with entryCache := x.entryCache.dropLast } old)).accessLatency =
              x.accessLatency := by
            show (setCachedFalse { x with entryCache := x.entryCache.dropLast } old).accessLatency = _
            rw [setCachedFalse_eq]
          have hxlen : x.entryCache.length = x.entryCache.dropLast.length + 1 := by
            conv_lhs => rw [← hsplit]
            simp
          have hfuel'' : (sendEntryToMemory
              (setCachedFalse { x with entryCache := x.entryCache.dropLast } old)).entryCache.length ≤ fuel := by
            rw [hYcache]
            omega
          have hD'' : ∀ b ∈ (sendEntryToMemory
              (setCachedFalse { x with entryCache := x.entryCache.dropLast } old)).entryCache,
              (alookup b (sendEntryToMemory
                (setCachedFalse { x with entryCache := x.entryCache.dropLast } old)).directory).isSome = true := by
            intro b hb
            rw [hYcache] at hb
            have hbx : b ∈ x.entryCache := by
              rw [← hsplit]
              exact List.mem_append_left _ hb
            rw [hYdir]
            exact setCachedFalse_isSome _ _ _ (hD b hbx)
          obtain ⟨ihm, iha, ihb, ihc, ihpres, ms, ihs, ihlen, ihprops⟩ :=
            ihf (sendEntryToMemory
              (setCachedFalse { x with entryCache := x.entryCache.dropLast } old))
              hfuel'' hD''
          rw [heq]
          refine ⟨?_, ?_, ?_, ?_, ?_, ?_⟩
          · rw [ihm, hYmshr]
          · rcases iha with hle | ⟨b, hb1, hb2⟩
            · exact Or.inl (by rw [hYmax] at hle; exact hle)
            · exact Or.inr ⟨b, hb1, by rw [hYmshr] at hb2; exact hb2⟩
          · intro b hb hnb
            rw [← hsplit] at hb
            rcases List.mem_append.mp hb with hb' | hb'
            · have := ihb b (by rw [hYcache]; exact hb') hnb
              rw [hYmshr] at this
              exact this
            · simp at hb'
              subst hb'
              exact hbusy'
          · intro b hb hnb
            rw [← hsplit] at hb
            rcases List.mem_append.mp hb with hb' | hb'
            · exact ihc b (by rw [hYcache]; exact hb') hnb
            · simp at hb'
              subst hb'
              apply ihpres
              rw [hYdir]
              have hs0 : alookup b { x with entryCache := x.entryCache.dropLast }.directory =
                  alookup b x.directory := rfl
              obtain ⟨e0, he0⟩ : ∃ e0, alookup b x.directory = some e0 := by
                have := hD b hmem_old
                cases halk : alookup b x.directory with
                | none => rw [halk] at this; simp at this
                | some e0 => exact ⟨e0, rfl⟩
              rw [setCachedFalse_lookup_self _ _ e0 (by rw [hs0, he0])]
              rfl
          · intro b hb
            apply ihpres
            rw [hYdir]
            exact setCachedFalse_preserves_false _ _ _ hb
          · refine ⟨({ time := x.timestamp + x.accessLatency,
                       ev := { cmd := .PutE, addr := 0, baseAddr := 0,
                               src := x.selfName, dst := x.memTarget,
                               id := (x.nextId, 0), size := x.entrySize,
                               noResponse := true },
                       viaAddr := false, dirAccess := true } : OutMsg) :: ms,
              ?_, ?_, ?_⟩
            · rw [ihs, sendEntryToMemory_sent, setCachedFalse_eq]
              simp
            · rw [hYcache] at ihlen
              simp only [List.length_cons]
              omega
            · intro m hm
              rcases List.mem_cons.mp hm with hm' | hm'
              · subst hm'
                exact ⟨rfl, rfl, rfl, rfl⟩
              · have := ihprops m hm'
                rw [hYts, hYlat] at this
                exact this
    · have heq : evictLoop (fuel + 1) x = x := by
        simp only [evictLoop]
        simp [h]
      rw [heq]
      exact ⟨rfl, Or.inl (Nat.le_of_not_lt h), fun b hb hnb => absurd hb hnb,
        fun b hb hnb => absurd hb hnb, fun b hb => hb, [], by simp, by simp,
        by simp⟩

/-! ## C4 -/

/-- C4 (counterexample to the claim as stated): with capacity 1 and the LRU
tail (line 128) having MSHR activity, touching line 64 leaves the cache at
size 2 — the loop `break`s at the busy tail instead of skipping it, no
entry is evicted, no `PutE` goes out, and the bound stays violated. -/
theorem C4_updateCache_stops_at_busy_tail :
    (updateCache stEvict 64).entryCache = [64, 128] ∧
    stEvict.entryCacheMaxSize = 1 ∧
    (updateCache stEvict 64).sent = [] ∧
    (alookup 128 (updateCache stEvict 64).directory).map DirEntry.cached =
      some true := by
  exact ⟨rfl, rfl, rfl, rfl⟩

/-- C4 (amended): when `updateCache` moves a touched (non-`I`, not yet
listed) entry to the front of the LRU list, the eviction loop pops entries
from the back until the size bound holds *or* the least-recently-used entry
has MSHR activity, where it stops; entries with MSHR activity are never
evicted; every evicted entry is marked `cached = false` and one `PutE` with
`F_NORESPONSE` is enqueued to memory at `timestamp + accessLatency` per
eviction; the MSHR itself is untouched. -/
theorem C4_updateCache_eviction (st : DirCtrl) (a : Addr) (e0 : DirEntry)
    (hmax : 0 < st.entryCacheMaxSize)
    (hE : alookup a st.directory = some e0)
    (hsI : e0.state ≠ .I)
    (hni : a ∉ st.entryCache)
    (hD : ∀ b ∈ st.entryCache, (alookup b st.directory).isSome = true) :
    (updateCache st a).mshr = st.mshr ∧
    ((updateCache st a).entryCache.length ≤ st.entryCacheMaxSize ∨
      ∃ b, (updateCache st a).entryCache.getLast? = some b ∧
        mshrExists st.mshr b = true) ∧
    (∀ b ∈ st.entryCache, b ∉ (updateCache st a).entryCache →
      mshrExists st.mshr b = false) ∧
    (∀ b ∈ st.entryCache, b ∉ (updateCache st a).entryCache →
      (alookup b (updateCache st a).directory).map DirEntry.cached = some false) ∧
    ∃ ms, (updateCache st a).sent = st.sent ++ ms ∧
      ms.length + (updateCache st a).entryCache.length =
        st.entryCache.length + 1 ∧
      ∀ m ∈ ms, m.ev.cmd = .PutE ∧ m.ev.noResponse = true ∧
        m.time = st.timestamp + st.accessLatency ∧ m.dirAccess = true := by
  have h0 : ¬ st.entryCacheMaxSize = 0 := by omega
  have hcont : st.entryCache.contains a = false := by
    simpa using hni
  have hrun : updateCache st a =
      evictLoop (a :: st.entryCache).length
        { st with entryCache := a :: st.entryCache } := by
    unfold updateCache
    rw [hE]
    simp [h0, hcont, hni, hsI]
  have hD' : ∀ b ∈ ({ st with entryCache := a :: st.entryCache } : DirCtrl).entryCache,
      (alookup b ({ st with entryCache := a :: st.entryCache } : DirCtrl).directory).isSome = true := by
    intro b hb
    rcases List.mem_cons.mp hb with hb' | hb'
    · subst hb'
      show (alookup b st.directory).isSome = true
      rw [hE]
      rfl
    · exact hD b hb'
  obtain ⟨ihm, iha, ihb, ihc, _, ms, ihs, ihlen, ihprops⟩ :=
    evictLoop_spec (a :: st.entryCache).length
      { st with entryCache := a :: st.entryCache } (by simp) hD'
  rw [hrun]
  refine ⟨ihm, iha, ?_, ?_, ms, ihs, ?_, ihprops⟩
  · intro b hb hnb
    exact ihb b (List.mem_cons_of_mem _ hb) hnb
  · intro b hb hnb
    exact ihc b (List.mem_cons_of_mem _ hb) hnb
  · simpa using ihlen

/-- Witness for C4 at a concrete input: same scenario as the
counterexample but with an idle MSHR — line 128 is evicted, marked
uncached, and one `PutE` with `F_NORESPONSE` goes to memory. -/
theorem C4_updateCache_eviction_witness :
    ({ stEvict with mshr := [] } : DirCtrl).entryCacheMaxSize = 1 ∧
    ∃ ms, (updateCache { stEvict with mshr := [] } 64).sent =
        ({ stEvict with mshr := [] } : DirCtrl).sent ++ ms ∧
      ms.length + (updateCache { stEvict with mshr := [] } 64).entryCache.length =
        ({ stEvict with mshr := [] } : DirCtrl).entryCache.length + 1 ∧
      ∀ m ∈ ms, m.ev.cmd = .PutE ∧ m.ev.noResponse = true ∧
        m.time = ({ stEvict with mshr := [] } : DirCtrl).timestamp +
          ({ stEvict with mshr := [] } : DirCtrl).accessLatency ∧
        m.dirAccess = true := by
  refine ⟨rfl, ?_⟩
  have h := C4_updateCache_eviction { stEvict with mshr := [] } 64
    { state := .S, sharers := ["A"] } (by decide) (by rfl) (by decide)
    (by decide) (by decide)
  exact h.2.2.2.2

/-! ## C5 -/

/-- C5 (counterexample to the claim as stated): when the last `AckInv`
arrives in `SM_Inv` the entry transitions to `IM` but the front MSHR event
is *not* pushed onto the retry buffer (the directory is still waiting for
the memory response), contrary to the claim's unconditional "and pushes the
front MSHR event onto the retry buffer". -/
theorem C5_ackInv_SMInv_does_not_push_retry :
    (handleAckInv stSMInv evAckInvB false).map (fun p =>
      (p.1, (alookup 64 p.2.directory).map DirEntry.state,
       p.2.retryBuffer, mshrGetFrontEvent p.2.mshr 64)) =
    some (true, some .IM, [], some evFrontA) := by
  rfl

/-- C5 (amended): on `AckInv` the directory removes the acking source as
sharer (or, if it is not a sharer, clears the owner), decrements
`acksNeeded`, and when the count reaches zero transitions the entry per its
transient state — `M_Inv → I`, `S_Inv → S` if sharers remain else `I`,
`SB_Inv → S_B` if sharers remain else `I`, `SD_Inv → S_D` if sharers remain
else `IS`, `SM_Inv → IM` — and pushes the front MSHR event onto the retry
buffer in every case *except* `SM_Inv`, which keeps waiting for the memory
response. -/
theorem C5_handleAckInv_spec (st : DirCtrl) (ev : MemEv) (inMSHR : Bool)
    (e : DirEntry) (f : MemEv) (n : Nat)
    (hE : alookup ev.baseAddr st.directory = some e)
    (hs : e.state = .M_Inv ∨ e.state = .S_Inv ∨ e.state = .SB_Inv ∨
          e.state = .SD_Inv ∨ e.state = .SM_Inv)
    (hf : mshrGetFrontEvent st.mshr ev.baseAddr = some f)
    (ha : mshrGetAcksNeeded st.mshr ev.baseAddr = n + 1) :
    (handleAckInv st ev inMSHR).map (fun p =>
      (p.1, mshrGetAcksNeeded p.2.mshr ev.baseAddr,
       (alookup ev.baseAddr p.2.directory).map (fun x => (x.state, x.sharers, x.owner)),
       p.2.retryBuffer)) =
    some (true, n,
      some ((if n = 0 then
               ackInvNext e.state
                 (if e.isSharer ev.src then e.removeSharer ev.src else e.removeOwner).hasSharers
             else e.state),
            (if e.isSharer ev.src then e.removeSharer ev.src else e.removeOwner).sharers,
            (if e.isSharer ev.src then e.removeSharer ev.src else e.removeOwner).owner),
      st.retryBuffer ++ (if n = 0 ∧ e.state ≠ .SM_Inv then [f] else [])) := by
  have ha' : (mshrReg st.mshr ev.baseAddr).acksNeeded = n + 1 := ha
  have hdec : mshrDecrementAcksNeeded st.mshr ev.baseAddr =
      ((n == 0 : Bool), mshrSetReg st.mshr ev.baseAddr
        { mshrReg st.mshr ev.baseAddr with acksNeeded := n }) := by
    simp only [mshrDecrementAcksNeeded]
    rw [ha']
  have hacksM : mshrGetAcksNeeded
      (mshrSetReg st.mshr ev.baseAddr
        { mshrReg st.mshr ev.baseAddr with acksNeeded := n }) ev.baseAddr = n := by
    have h := mshrGetAcksNeeded_dec st.mshr ev.baseAddr
    rw [hdec, ha] at h
    simpa using h
  have hfrontM : mshrGetFrontEvent
      (mshrSetReg st.mshr ev.baseAddr
        { mshrReg st.mshr ev.baseAddr with acksNeeded := n }) ev.baseAddr = some f := by
    have h := mshrGetFrontEvent_dec st.mshr ev.baseAddr
    rw [hdec, hf] at h
    simpa using h
  unfold handleAckInv
  simp only [getDirEntry, hE]
  cases hsh : e.isSharer ev.src <;>
    rcases hs with h5 | h5 | h5 | h5 | h5 <;> cases n <;>
    by_cases hsB : e.sharers = [] <;>
    by_cases hsE : e.sharers.erase ev.src = [] <;>
    simp [hsh, hdec, h5, hacksM, hfrontM, setDirEntry, alookup_aupdate_self,
      responsesErase_mshr, responsesErase_directory, responsesErase_retryBuffer,
      ackInvNext, DirEntry.removeOwner, DirEntry.removeSharer, DirEntry.hasSharers,
      hsB, hsE]

/-- Witness for C5 at a concrete input: the last `AckInv` in `S_Inv` with
no sharers left drives the entry to `I` and retries A's queued `GetX`. -/
theorem C5_handleAckInv_spec_witness :
    (handleAckInv
        { stSMInv with directory := [(64, { state := .S_Inv, sharers := ["B"] })] }
        evAckInvB false).map (fun p =>
      (p.1, mshrGetAcksNeeded p.2.mshr 64,
       (alookup 64 p.2.directory).map (fun x => (x.state, x.sharers, x.owner)),
       p.2.retryBuffer)) =
    some (true, 0, some (.I, [], ""), [evFrontA]) := by
  have h := C5_handleAckInv_spec
    { stSMInv with directory := [(64, { state := .S_Inv, sharers := ["B"] })] }
    evAckInvB false { state := .S_Inv, sharers := ["B"] } evFrontA 0
    (by rfl) (by simp) (by rfl) (by rfl)
  simpa using h

/-! ## C6 -/

/-- C6 (counterexample to the claim as stated): a `ForceInv` arriving for a
cached entry in `S` broadcasts `ForceInv` — not `Inv` — to the sharers (the
entry does transition to `S_Inv`). -/
theorem C6_forceInv_S_broadcasts_ForceInv_not_Inv :
    (handleForceInv stSA evForceM false).map (fun p =>
      (p.1, (alookup 64 p.2.directory).map DirEntry.state,
       p.2.sent.map (fun m => (m.ev.cmd, m.ev.dst)))) =
    some (true, some .S_Inv, [(.ForceInv, "A")]) := by
  rfl

/-- C6 (amended): for a `FetchInv` or `ForceInv` arriving from the memory
side for a cached entry with no MSHR activity on the line: in state `I` the
directory answers `AckInv` (entry untouched) and cleans up; in `S` it moves
to `S_Inv` and sends one invalidation per sharer other than the source,
carrying the arriving command (`Inv` for `FetchInv`, `ForceInv` for
`ForceInv`); in `M` it moves to `M_Inv` and sends a single `FetchInv`
(resp. `ForceInv`, which skips the data) to the owner. -/
theorem C6_memory_side_shootdowns (st : DirCtrl) (ev : MemEv) (e : DirEntry)
    (hE : alookup ev.baseAddr st.directory = some e)
    (hc : e.cached = true)
    (hm : alookup ev.baseAddr st.mshr = none) :
    (e.state = .I →
      (handleFetchInv st ev false).map (fun p =>
        (p.1, p.2.directory, p.2.retryBuffer,
         p.2.sent.map (fun m => (m.ev.cmd, m.ev.dst, m.time)))) =
        some (true, st.directory, st.retryBuffer,
          st.sent.map (fun m => (m.ev.cmd, m.ev.dst, m.time)) ++
            [(.AckInv, ev.src, st.timestamp + st.accessLatency)]) ∧
      (handleForceInv st ev false).map (fun p =>
        (p.1, p.2.directory, p.2.retryBuffer,
         p.2.sent.map (fun m => (m.ev.cmd, m.ev.dst, m.time)))) =
        some (true, st.directory, st.retryBuffer,
          st.sent.map (fun m => (m.ev.cmd, m.ev.dst, m.time)) ++
            [(.AckInv, ev.src, st.timestamp + st.accessLatency)])) ∧
    (e.state = .S →
      (∃ msgs,
        (handleFetchInv st ev false).map (fun p =>
          (p.1, (alookup ev.baseAddr p.2.directory).map DirEntry.state, p.2.sent)) =
          some (true, some .S_Inv, st.sent ++ msgs) ∧
        msgs.length = (e.sharers.filter (fun x => x ≠ ev.src)).length ∧
        (∀ m ∈ msgs, m.ev.cmd = .Inv ∧ m.time = st.timestamp + st.accessLatency) ∧
        (∀ x ∈ e.sharers, x ≠ ev.src → ∃ m ∈ msgs, m.ev.dst = x)) ∧
      (∃ msgs,
        (handleForceInv st ev false).map (fun p =>
          (p.1, (alookup ev.baseAddr p.2.directory).map DirEntry.state, p.2.sent)) =
          some (true, some .S_Inv, st.sent ++ msgs) ∧
        msgs.length = (e.sharers.filter (fun x => x ≠ ev.src)).length ∧
        (∀ m ∈ msgs, m.ev.cmd = .ForceInv ∧ m.time = st.timestamp + st.accessLatency) ∧
        (∀ x ∈ e.sharers, x ≠ ev.src → ∃ m ∈ msgs, m.ev.dst = x))) ∧
    (e.state = .M →
      (handleFetchInv st ev false).map (fun p =>
        (p.1, (alookup ev.baseAddr p.2.directory).map DirEntry.state,
         p.2.sent.map (fun m => (m.ev.cmd, m.ev.dst, m.time)))) =
        some (true, some .M_Inv,
          st.sent.map (fun m => (m.ev.cmd, m.ev.dst, m.time)) ++
            [(.FetchInv, e.owner, st.timestamp + st.accessLatency)]) ∧
      (handleForceInv st ev false).map (fun p =>
        (p.1, (alookup ev.baseAddr p.2.directory).map DirEntry.state,
         p.2.sent.map (fun m => (m.ev.cmd, m.ev.dst, m.time)))) =
        some (true, some .M_Inv,
          st.sent.map (fun m => (m.ev.cmd, m.ev.dst, m.time)) ++
            [(.ForceInv, e.owner, st.timestamp + st.accessLatency)])) := by
  have hex := mshrExists_of_none st.mshr ev.baseAddr hm
  have hhd := mshrHasData_of_none st.mshr ev.baseAddr hm
  have hpwb := mshrPendingWriteback_of_none st.mshr ev.baseAddr hm
  refine ⟨?_, ?_, ?_⟩
  · intro h5
    constructor <;>
      simp [handleFetchInv, handleForceInv, getDirEntry, hE, hc, h5, hex, hhd,
        hpwb, sendAckInv, makeResponse, freshId, forwardByDestination,
        cleanUpAfterRequest, retryNextIfReady]
  · intro h5
    have halloc1 := allocateMSHR_fwd_empty st ev (-1) hm (Or.inl rfl)
    have halloc0 := allocateMSHR_fwd_empty st ev 0 hm (Or.inr rfl)
    constructor
    · obtain ⟨ht, hl, hd, msgs, hs, hlen, hall, hcov⟩ :=
        issueInvalidationsGo_spec ev.src ev e ev.baseAddr .Inv e.sharers
          { st with mshr := aupdate ev.baseAddr { entries := [.ev ev false] } st.mshr }
      refine ⟨msgs, ?_, hlen, fun m hm2 => ⟨(hall m hm2).1, (hall m hm2).2.1⟩, hcov⟩
      simp [handleFetchInv, getDirEntry, hE, hc, h5, halloc1, issueInvalidations,
        setDirEntry, alookup_aupdate_self, hs, hd]
    · obtain ⟨ht, hl, hd, msgs, hs, hlen, hall, hcov⟩ :=
        issueInvalidationsGo_spec ev.src ev e ev.baseAddr .ForceInv e.sharers
          { st with mshr := aupdate ev.baseAddr { entries := [.ev ev false] } st.mshr }
      refine ⟨msgs, ?_, hlen, fun m hm2 => ⟨(hall m hm2).1, (hall m hm2).2.1⟩, hcov⟩
      simp [handleForceInv, getDirEntry, hE, hc, h5, halloc0, issueInvalidations,
        setDirEntry, alookup_aupdate_self, hs, hd]
  · intro h5
    have halloc1 := allocateMSHR_fwd_empty st ev (-1) hm (Or.inl rfl)
    have halloc0 := allocateMSHR_fwd_empty st ev 0 hm (Or.inr rfl)
    constructor
    · simp [handleFetchInv, getDirEntry, hE, hc, h5, halloc1, issueFetch,
        newMemEv, freshId, forwardByDestination, setDirEntry,
        alookup_aupdate_self, responsesInsert_sent, responsesInsert_directory,
        responsesInsert_timestamp, responsesInsert_accessLatency]
    · simp [handleForceInv, getDirEntry, hE, hc, h5, halloc0, issueInvalidation,
        newMemEv, freshId, forwardByDestination, setDirEntry,
        alookup_aupdate_self, responsesInsert_sent, responsesInsert_directory,
        responsesInsert_timestamp, responsesInsert_accessLatency]

/-- Witness for C6 at a concrete input: a `ForceInv` for an `M` line owned
by A sends a single `ForceInv` to A and moves the entry to `M_Inv`. -/
theorem C6_memory_side_shootdowns_witness :
    (handleForceInv stMA evForceM false).map (fun p =>
      (p.1, (alookup 64 p.2.directory).map DirEntry.state,
       p.2.sent.map (fun m => (m.ev.cmd, m.ev.dst, m.time)))) =
    some (true, some .M_Inv, [(.ForceInv, "A", 0)]) := by
  have h := ((C6_memory_side_shootdowns stMA evForceM { state := .M, owner := "A" }
    (by rfl) (by rfl) (by rfl)).2.2 (by rfl)).2
  simpa using h

/-! ## C7 -/

/-- C7 (counterexample to the claim as stated): a non-cacheable request
carrying `F_NORESPONSE` is forwarded but *not* recorded in
`noncacheMemReqs` (no response will ever come back for it). -/
theorem C7_noresponse_request_not_recorded :
    (handleNoncacheableRequest {} evNCPosted).noncacheMemReqs = [] ∧
    (handleNoncacheableRequest {} evNCPosted).sent.length = 1 := by
  exact ⟨rfl, rfl⟩

/-- C7 (amended): every non-cacheable request is forwarded by address with
the directory as source, and — unless it carries `F_NORESPONSE` — its id
and original source are recorded in `noncacheMemReqs`; a non-cacheable
response to a recorded id is forwarded by destination to the original
source (source reset to the directory) and the record erased, while a
response with no pending record is fatal and changes nothing. -/
theorem C7_noncacheable_passthrough :
    (∀ (st : DirCtrl) (ev : MemEv),
      ((handleNoncacheableRequest st ev).sent =
        st.sent ++ [{ time := st.timestamp + 1, ev := { ev with src := st.selfName },
                      viaAddr := true }]) ∧
      (ev.noResponse = false →
        (handleNoncacheableRequest st ev).noncacheMemReqs =
          pupdate ev.id ev.src st.noncacheMemReqs) ∧
      (ev.noResponse = true →
        (handleNoncacheableRequest st ev).noncacheMemReqs = st.noncacheMemReqs)) ∧
    (∀ (st : DirCtrl) (ev : MemEv) (orig : Node),
      (plookup ev.id st.noncacheMemReqs = some orig →
        handleNoncacheableResponse st ev =
          some (forwardByDestination
            { st with noncacheMemReqs := perase ev.id st.noncacheMemReqs }
            { ev with dst := orig, src := st.selfName } (st.timestamp + 1))) ∧
      (plookup ev.id st.noncacheMemReqs = none →
        handleNoncacheableResponse st ev = none)) := by
  constructor
  · intro st ev
    refine ⟨?_, ?_, ?_⟩
    · cases h : ev.noResponse <;>
        simp [handleNoncacheableRequest, forwardByAddress, h]
    · intro h
      simp [handleNoncacheableRequest, forwardByAddress, h]
    · intro h
      simp [handleNoncacheableRequest, forwardByAddress, h]
  · intro st ev orig
    constructor
    · intro h
      simp [handleNoncacheableResponse, h]
    · intro h
      simp [handleNoncacheableResponse, h]

/-- Witness for C7 at a concrete input: a recorded response is routed back
to its original requester A. -/
theorem C7_noncacheable_passthrough_witness :
    handleNoncacheableResponse
        { noncacheMemReqs := [((21, 0), "A")] }
        { evNCPosted with noResponse := false } =
      some (forwardByDestination { noncacheMemReqs := [] }
        { evNCPosted with noResponse := false, dst := "A", src := "dir" } 1) := by
  have h := ((C7_noncacheable_passthrough).2
    { noncacheMemReqs := [((21, 0), "A")] }
    { evNCPosted with noResponse := false } "A").1 (by decide)
  simpa using h

/-! ## C8 -/

/-- A non-forward insert with an unbounded MSHR into an empty register
lands at the front and returns OK. -/
theorem allocateMSHR_unbounded_empty (st : DirCtrl) (ev : MemEv) (pos : Int)
    (fwd : Bool) (hmx : st.mshrMaxSize = none)
    (hm : alookup ev.baseAddr st.mshr = none) (hpos : pos = -1 ∨ pos = 0) :
    allocateMSHR st ev fwd pos =
      (.OK, { st with
        mshr := aupdate ev.baseAddr { entries := [.ev ev false] } st.mshr }) := by
  rcases hpos with h | h <;> subst h <;>
    simp [allocateMSHR, mshrInsertEvent, hmx, mshrInsertEvent.mshrInsertAt,
      mshrReg_of_none _ _ hm, mshrSetReg, MSHRReg.isEmptyReg]

/-- C8: under MESI, a `GetS` for a cached entry in `I` with no buffered
MSHR data moves the entry to `IS` and issues a line-granularity memory read
(the cloned request carries the directory's name and the line size, routed
by address, in progress in the MSHR); when the `GetXResp` later arrives in
`IS` for a coherent requester, the entry moves to `M` owned by the
requester and a `GetXResp` with the payload is forwarded to it. -/
theorem C8_read_miss_MESI :
    (∀ (st : DirCtrl) (ev : MemEv) (e : DirEntry),
      alookup ev.baseAddr st.directory = some e →
      e.state = .I →
      e.cached = true →
      alookup ev.baseAddr st.mshr = none →
      st.mshrMaxSize = none →
      (handleGetS st ev false).map (fun p =>
        (p.1, (alookup ev.baseAddr p.2.directory).map DirEntry.state,
         mshrGetInProgress p.2.mshr ev.baseAddr,
         p.2.sent.map (fun m => (m.ev.cmd, m.ev.src, m.ev.size, m.viaAddr, m.time)))) =
      some (true, some .IS, true,
        st.sent.map (fun m => (m.ev.cmd, m.ev.src, m.ev.size, m.viaAddr, m.time)) ++
          [(ev.cmd, st.selfName, st.lineSize, true, st.timestamp + st.accessLatency)])) ∧
    (∀ (st : DirCtrl) (ev req : MemEv) (e : DirEntry),
      alookup ev.baseAddr st.directory = some e →
      e.state = .IS →
      mshrGetFrontEvent st.mshr ev.baseAddr = some req →
      st.incoherentSrc.contains req.src = false →
      st.protocol = .MESI →
      (handleGetXResp st ev false).map (fun p =>
        (p.1, (alookup ev.baseAddr p.2.directory).map (fun x => (x.state, x.owner)),
         p.2.sent.map (fun m => (m.ev.cmd, m.ev.dst, m.ev.payload)))) =
      some (true, some (.M, req.src),
        st.sent.map (fun m => (m.ev.cmd, m.ev.dst, m.ev.payload)) ++
          [(.GetXResp, req.src, ev.payload)])) := by
  constructor
  · intro st ev e hE h5 hc hm hmx
    have hhd := mshrHasData_of_none st.mshr ev.baseAddr hm
    have halloc := allocateMSHR_unbounded_empty st ev (-1) false hmx hm (Or.inl rfl)
    simp [handleGetS, getDirEntry, hE, hc, h5, hhd, halloc, issueMemoryRequest,
      forwardByAddress, setDirEntry, alookup_aupdate_self, mshrSetInProgress,
      mshrReg, mshrSetReg, MSHRReg.isEmptyReg, mshrGetInProgress]
  · intro st ev req e hE h5 hfront hinc hprot
    have hinc' : ¬ req.src ∈ st.incoherentSrc := by simpa using hinc
    simp [handleGetXResp, getDirEntry, hE, h5, hfront, hinc', hprot,
      sendDataResponse, makeResponse, freshId, forwardByDestination,
      setDirEntry, alookup_aupdate_self, cleanUpAfterResponse_eq_retry,
      retryNextIfReady_directory, retryNextIfReady_sent]

/-- Witness for C8 at a concrete input: the read-miss scenario of the spec
(line 0, client A, payload `[1, 2, 3]`). -/
theorem C8_read_miss_MESI_witness :
    (handleGetS stIdle evGetSA false).map (fun p =>
      (p.1, (alookup 0 p.2.directory).map DirEntry.state,
       mshrGetInProgress p.2.mshr 0,
       p.2.sent.map (fun m => (m.ev.cmd, m.ev.src, m.ev.size, m.viaAddr, m.time)))) =
      some (true, some .IS, true, [(.GetS, "dir", 64, true, 0)]) ∧
    (handleGetXResp stIS evMemResp false).map (fun p =>
      (p.1, (alookup 0 p.2.directory).map (fun x => (x.state, x.owner)),
       p.2.sent.map (fun m => (m.ev.cmd, m.ev.dst, m.ev.payload)))) =
      some (true, some (.M, "A"), [(.GetXResp, "A", [1, 2, 3])]) := by
  constructor
  · have h := (C8_read_miss_MESI).1 stIdle evGetSA {}
      (by rfl) (by rfl) (by rfl) (by rfl) (by rfl)
    simpa using h
  · have h := (C8_read_miss_MESI).2 stIS evMemResp evGetSA { state := .IS }
      (by rfl) (by rfl) (by rfl) (by rfl) (by rfl)
    simpa using h

/-! ## C9 -/

/-- C9: `handleAckPut` never modifies the directory (state, owner and
sharers of the entry are untouched), sends nothing and changes no
response bookkeeping; it only pops the front MSHR entry and possibly
pushes the new front onto the retry buffer.  (The entry is assumed to
exist; `getDirEntry` would otherwise allocate one just to read it.) -/
theorem C9_handleAckPut_frame (st : DirCtrl) (ev : MemEv) (inMSHR : Bool)
    (e : DirEntry) (hE : alookup ev.baseAddr st.directory = some e) :
    ∃ st', handleAckPut st ev inMSHR = some (true, st') ∧
      st'.directory = st.directory ∧
      st'.sent = st.sent ∧
      st'.responses = st.responses ∧
      st'.mshr = mshrRemoveFront st.mshr ev.baseAddr ∧
      (st'.retryBuffer = st.retryBuffer ∨
        ∃ f, mshrGetFrontEvent st'.mshr ev.baseAddr = some f ∧
          st'.retryBuffer = st.retryBuffer ++ [f]) := by
  refine ⟨cleanUpAfterResponse st ev, ?_, ?_, ?_, ?_, ?_, ?_⟩
  · simp [handleAckPut, getDirEntry, hE]
  · rw [cleanUpAfterResponse_eq_retry, retryNextIfReady_directory]
  · rw [cleanUpAfterResponse_eq_retry, retryNextIfReady_sent]
  · rw [cleanUpAfterResponse_eq_retry, retryNextIfReady_responses]
  · rw [cleanUpAfterResponse_eq_retry, retryNextIfReady_mshr]
  · rw [cleanUpAfterResponse_eq_retry]
    rcases retryNextIfReady_retryBuffer
        { st with mshr := mshrRemoveFront st.mshr ev.baseAddr } ev.baseAddr with
      h | ⟨f, hf, h⟩
    · exact Or.inl h
    · refine Or.inr ⟨f, ?_, h⟩
      rw [retryNextIfReady_mshr]
      exact hf

/-- Witness for C9 at a concrete input: an `AckPut` for line 64 pops the
front MSHR entry and leaves the directory entry alone. -/
theorem C9_handleAckPut_frame_witness :
    ∃ st', handleAckPut stSMInv evAckInvB true = some (true, st') ∧
      st'.directory = stSMInv.directory ∧
      st'.sent = stSMInv.sent ∧
      st'.responses = stSMInv.responses ∧
      st'.mshr = mshrRemoveFront stSMInv.mshr 64 ∧
      (st'.retryBuffer = stSMInv.retryBuffer ∨
        ∃ f, mshrGetFrontEvent st'.mshr 64 = some f ∧
          st'.retryBuffer = stSMInv.retryBuffer ++ [f]) :=
  C9_handleAckPut_frame stSMInv evAckInvB true
    { state := .SM_Inv, sharers := ["B"] } (by rfl)

/-! ## C10 -/

/-- A front entry of kind `event` yields a front event. -/
theorem frontType_event_frontEvent (m : Mshr) (a : Addr)
    (h : mshrGetFrontType m a = some .event) :
    ∃ e, mshrGetFrontEvent m a = some e := by
  unfold mshrGetFrontType at h
  unfold mshrGetFrontEvent
  cases hh : (mshrReg m a).entries.head? with
  | none => rw [hh] at h; simp at h
  | some it =>
    rw [hh] at h
    cases it with
    | ev e p => exact ⟨e, rfl⟩
    | wb d => simp [MSHRItem.kind] at h

/-- If the post-removal front is an idle event with no outstanding acks,
`retryNextIfReady` pushes it. -/
theorem retryNextIfReady_spec (st : DirCtrl) (a : Addr)
    (h2 : mshrGetFrontType st.mshr a = some .event)
    (h3 : mshrGetInProgress st.mshr a = false)
    (h4 : mshrGetAcksNeeded st.mshr a = 0)
    (h1 : mshrExists st.mshr a = true) :
    ∃ f, mshrGetFrontEvent st.mshr a = some f ∧
      (retryNextIfReady st a).retryBuffer = st.retryBuffer ++ [f] := by
  obtain ⟨f, hf⟩ := frontType_event_frontEvent st.mshr a h2
  refine ⟨f, hf, ?_⟩
  unfold retryNextIfReady
  simp [h1, h2, h3, h4, hf]

/-- C10: after `cleanUpAfterRequest` / `cleanUpAfterResponse`, if the MSHR
still holds entries for the address and the new front is an event that is
not in progress with no outstanding acks, that event has been pushed onto
the retry buffer. -/
theorem C10_cleanup_retries_unblocked_front :
    (∀ (st : DirCtrl) (ev : MemEv) (inMSHR : Bool),
      mshrExists (cleanUpAfterRequest st ev inMSHR).mshr ev.baseAddr = true →
      mshrGetFrontType (cleanUpAfterRequest st ev inMSHR).mshr ev.baseAddr = some .event →
      mshrGetInProgress (cleanUpAfterRequest st ev inMSHR).mshr ev.baseAddr = false →
      mshrGetAcksNeeded (cleanUpAfterRequest st ev inMSHR).mshr ev.baseAddr = 0 →
      ∃ f, mshrGetFrontEvent (cleanUpAfterRequest st ev inMSHR).mshr ev.baseAddr = some f ∧
        (cleanUpAfterRequest st ev inMSHR).retryBuffer = st.retryBuffer ++ [f]) ∧
    (∀ (st : DirCtrl) (ev : MemEv),
      mshrExists (cleanUpAfterResponse st ev).mshr ev.baseAddr = true →
      mshrGetFrontType (cleanUpAfterResponse st ev).mshr ev.baseAddr = some .event →
      mshrGetInProgress (cleanUpAfterResponse st ev).mshr ev.baseAddr = false →
      mshrGetAcksNeeded (cleanUpAfterResponse st ev).mshr ev.baseAddr = 0 →
      ∃ f, mshrGetFrontEvent (cleanUpAfterResponse st ev).mshr ev.baseAddr = some f ∧
        (cleanUpAfterResponse st ev).retryBuffer = st.retryBuffer ++ [f]) := by
  constructor
  · intro st ev inMSHR
    simp only [cleanUpAfterRequest]
    split <;> try split
    all_goals
      intro h1 h2 h3 h4
      rw [retryNextIfReady_mshr] at h1 h2 h3 h4
      obtain ⟨f, hf, hr⟩ := retryNextIfReady_spec _ _ h2 h3 h4 h1
      exact ⟨f, by rw [retryNextIfReady_mshr]; exact hf, hr⟩
  · intro st ev
    intro h1 h2 h3 h4
    rw [cleanUpAfterResponse_eq_retry] at h1 h2 h3 h4 ⊢
    rw [retryNextIfReady_mshr] at h1 h2 h3 h4
    obtain ⟨f, hf, hr⟩ := retryNextIfReady_spec _ _ h2 h3 h4 h1
    exact ⟨f, by rw [retryNextIfReady_mshr]; exact hf, hr⟩

/-- Witness for C10 at a concrete input: completing the in-progress front
request leaves an idle `GetX` at the front, which gets pushed for retry. -/
theorem C10_cleanup_retries_unblocked_front_witness :
    ∃ f, mshrGetFrontEvent (cleanUpAfterResponse stTwoQueued evFrontA).mshr
        evFrontA.baseAddr = some f ∧
      (cleanUpAfterResponse stTwoQueued evFrontA).retryBuffer =
        stTwoQueued.retryBuffer ++ [f] :=
  (C10_cleanup_retries_unblocked_front).2 stTwoQueued evFrontA
    (by decide) (by decide) (by decide) (by decide)

end MemH
